import Mathlib

/-!
# jx-admin `create` command: bootstrap orchestration

A shallow embedding of `pkg/cmd/create/create.go`.

* Go `error` values are `Option Error` (`none` is `nil`); a Go result pair
  `(string, error)` is `String × Option Error`.
* The external collaborators (filesystem, git transport, requirements store,
  verifier, publisher, prompt, operator installer) are the fields of
  `Collaborators`: one field per call site of `create.go`, a function of the
  arguments passed there.  Each call site runs at most once per run, so an
  arbitrary `Collaborators` value covers every behaviour of the real,
  stateful collaborators.
* Every collaborator call is recorded, in call order, as an `Event` of the
  returned trace, together with the error it returned.
* The mutable receiver `o *Options` is threaded through explicitly.
* Logging (`log.Logger()`) has no effect on control flow and is left out.
-/

namespace JxAdmin

/-! ## Errors (`github.com/pkg/errors`) -/

/-- Go error values: an error produced by a collaborator, an error made by
`errors.Errorf`, or an error wrapped by `errors.Wrap` / `errors.Wrapf`. -/
inductive Error where
  | collab (id : String)
  | errorf (msg : String)
  | wrap (cause : Error) (msg : String)
  deriving DecidableEq, Repr

/-! ## Data model -/

/-- Modelled from the spec: the type `config.EnvironmentConfig` of jx-api is
declared outside this repository's sources.  The fields `Key`, `Owner`,
`Repository` and `RemoteCluster` are the ones `create.go` reads or writes;
`Rest` stands for all remaining fields, which `create.go` never touches and
whose Go zero value is the empty string here. -/
structure EnvironmentConfig where
  Key : String
  Owner : String
  Repository : String
  RemoteCluster : Bool
  Rest : String
  deriving DecidableEq, Repr

/-- Modelled from the spec: the type `config.RequirementsConfig` of jx-api is
declared outside this repository's sources: an ordered list of environments
plus fields opaque to `create.go`. -/
structure RequirementsConfig where
  Environments : List EnvironmentConfig
  Rest : String
  deriving DecidableEq, Repr

/-- The flags of `reqhelpers.RequirementFlags` that `create.go` reads. -/
structure RequirementFlags where
  EnvironmentGitPublic : Bool
  Rest : String
  deriving DecidableEq, Repr

/-- The fields of `envfactory.CreatedRepository` read by `create.go`. -/
structure CreatedRepository where
  Owner : String
  Repository : String
  deriving DecidableEq, Repr

/-- The field of the created `scm.Repository` read by `create.go`. -/
structure ScmRepository where
  Link : String
  deriving DecidableEq, Repr

/-- The fields of `ScmClientFactory` read by `create.go`. -/
structure ScmClientFactory where
  GitUsername : String
  GitToken : String
  deriving DecidableEq, Repr

/-- The git client `o.Gitter`: one supplied by the caller, or the CLI client
made by `cli.NewCLIClient` when none was supplied. -/
inductive Gitter where
  | supplied (name : String)
  | cliClient
  deriving DecidableEq, Repr

/-- The fields of `operator.Options` written by `installGitOperator`. -/
structure OperatorOptions where
  Dir : String
  BatchMode : Bool
  GitURL : String
  GitUserName : String
  GitToken : String
  Namespace : String
  deriving DecidableEq, Repr

/-- The receiver `Options`; the fields of the embedded `envfactory.EnvFactory`
(`Gitter`, `BatchMode`, `CreatedRepository`, `CreatedScmRepository`,
`ScmClientFactory`) are promoted, as in Go.  A `nil` pointer is `none`. -/
structure Options where
  Gitter : Option Gitter
  BatchMode : Bool
  CreatedRepository : Option CreatedRepository
  CreatedScmRepository : Option ScmRepository
  ScmClientFactory : ScmClientFactory
  Operator : OperatorOptions
  DisableVerifyPackages : Bool
  Requirements : RequirementsConfig
  Flags : RequirementFlags
  Environment : String
  InitialGitURL : String
  Dir : String
  RequirementsFile : String
  DevGitKind : String
  DevGitURL : String
  Args : List String
  NoOperator : Bool
  deriving DecidableEq, Repr

/-- The two git URL constants of package `common`, which is not part of the
sources at hand; every definition below takes them as a parameter. -/
structure Common where
  DefaultBootRepository : String
  DefaultEnvironmentHelmfileGitRepoURL : String
  deriving DecidableEq, Repr

/-! ## Collaborators and the call trace -/

/-- Result of `reqhelpers.OverrideRequirements`: the error and the values left
behind the two pointers it receives. -/
structure OverrideResult where
  err : Option Error
  Requirements : RequirementsConfig
  Flags : RequirementFlags

/-- Result of `EnvFactory.CreateDevEnvGitRepository`: the error and the two
fields of the factory it fills in. -/
structure PublishResult where
  err : Option Error
  CreatedRepository : Option CreatedRepository
  CreatedScmRepository : Option ScmRepository

/-- Result of `config.LoadRequirementsConfig`. -/
structure LoadResult where
  requirements : RequirementsConfig
  fileName : String
  err : Option Error

/-- The external collaborators, one field per call site of `create.go`. -/
structure Collaborators where
  /-- Call site, line 111: `giturl.SaasGitKind(gitURL)` -/
  SaasGitKind : String → String
  /-- Call site, line 183: `os.MkdirAll(dir, perm)` -/
  MkdirAll : String → Option Error
  /-- Call site, line 188: `ioutil.TempDir("", "helmboot-")` -/
  TempDir : String × Option Error
  /-- Call site, line 196: `gitclient.CloneToDir(gitter, gitURL, dir)` -/
  CloneToDir : Gitter → String → String → String × Option Error
  /-- Call site, line 123: `reqhelpers.OverrideRequirements` -/
  OverrideRequirements :
    List String → String → String → RequirementsConfig → RequirementFlags → String →
      OverrideResult
  /-- Call site, line 128: `EnvFactory.VerifyPreInstall(disable, dir)` -/
  VerifyPreInstall : Bool → String → Option Error
  /-- Call site, line 135: `gitclient.AddAndCommitFiles(gitter, dir, message)` -/
  AddAndCommitFiles : Gitter → String → String → Bool × Option Error
  /-- Call site, line 139: `EnvFactory.CreateDevEnvGitRepository(dir, public)` -/
  CreateDevEnvGitRepository : String → Bool → PublishResult
  /-- Call site, line 204: `gitclient.CloneToDir(o.Gitter, gitURL, "")` -/
  CloneDevToDir : Option Gitter → String → String → String × Option Error
  /-- Call site, line 208: `config.LoadRequirementsConfig(dir, false)` -/
  LoadRequirementsConfig : String → Bool → LoadResult
  /-- Call site, line 234: `requirements.SaveConfig(fileName)` -/
  SaveConfig : RequirementsConfig → String → Option Error
  /-- Call site, line 249: `EnvFactory.CreatePullRequest` -/
  CreatePullRequest : String → String → String → String → String → String → Option Error
  /-- Call site, line 153: `o.GetInput().Confirm(message, default, help)` -/
  Confirm : String → Bool → String → Bool × Option Error
  /-- Call site, line 263: `op.Run()` of the operator installer -/
  OperatorRun : OperatorOptions → Option Error

/-- A collaborator call with the arguments it received. -/
inductive Call where
  | MkdirAll (dir : String)
  | TempDir
  | CloneToDir (gitter : Option Gitter) (gitURL dir : String)
  | OverrideRequirements (dir requirementsFile environment : String)
  | VerifyPreInstall (disable : Bool) (dir : String)
  | AddAndCommitFiles (gitter : Gitter) (dir message : String)
  | CreateDevEnvGitRepository (dir : String) (gitPublic : Bool)
  | LoadRequirementsConfig (dir : String) (failOnMissing : Bool)
  | SaveConfig (requirements : RequirementsConfig) (fileName : String)
  | CreatePullRequest (dir gitURL kind base title body : String)
  | Confirm (message : String) (default : Bool) (help : String)
  | OperatorRun (op : OperatorOptions)
  deriving DecidableEq, Repr

/-- One entry of the call trace: the call, the source line of the call site
and the error the collaborator returned (`none` on success). -/
structure Event where
  line : Nat
  call : Call
  err : Option Error
  deriving DecidableEq, Repr

/-! ## `gitCloneIfRequired` (lines 167-197) -/

/-- Result of a method that returns `(string, error)` and mutates `o`. -/
structure DirResult where
  dir : String
  err : Option Error
  opts : Options
  trace : List Event

/-- The method `Options.gitCloneIfRequired`, lines 167-197. -/
def gitCloneIfRequired (c : Common) (w : Collaborators) (o : Options) (gitter : Gitter) :
    DirResult :=
  let gitURL := o.InitialGitURL
  let o := if o.Environment = "" then { o with Environment := "dev" } else o
  let gitURL :=
    if gitURL = "" then
      if o.Environment = "dev" then c.DefaultBootRepository
      else c.DefaultEnvironmentHelmfileGitRepoURL
    else gitURL
  let o := { o with InitialGitURL := gitURL }
  let dir := o.Dir
  if dir ≠ "" then
    match w.MkdirAll dir with
    | some err =>
      { dir := "", err := some (.wrap err ("failed to create directory " ++ dir)), opts := o,
        trace := [⟨183, .MkdirAll dir, some err⟩] }
    | none =>
      let r := w.CloneToDir gitter gitURL dir
      { dir := r.1, err := r.2, opts := o,
        trace := [⟨183, .MkdirAll dir, none⟩, ⟨196, .CloneToDir (some gitter) gitURL dir, r.2⟩] }
  else
    match w.TempDir with
    | (_, some err) =>
      { dir := "", err := some (.wrap err "failed to create temporary directory"), opts := o,
        trace := [⟨188, .TempDir, some err⟩] }
    | (dir, none) =>
      let r := w.CloneToDir gitter gitURL dir
      { dir := r.1, err := r.2, opts := o,
        trace := [⟨188, .TempDir, none⟩, ⟨196, .CloneToDir (some gitter) gitURL dir, r.2⟩] }

/-! ## `createPullRequestOnDevRepository` (lines 199-250) -/

/-- The loop of lines 215-223: `idx` starts at `-1` and becomes the first
index `k` whose entry has `Key == envKey`; `k` is the index of the head of
the list still to be visited. -/
def findEnvironment (envKey : String) : List EnvironmentConfig → Nat → Int
  | [], _ => -1
  | e :: rest, k => if e.Key = envKey then (k : Int) else findEnvironment envKey rest (k + 1)

/-- Lines 213-232: the edit made to `requirements.Environments`. -/
def linkEnvironments (envs : List EnvironmentConfig) (envKey : String)
    (cr : CreatedRepository) : List EnvironmentConfig :=
  let idx := findEnvironment envKey envs 0
  let envs :=
    if idx < 0 then
      envs ++ [{ Key := envKey, Owner := "", Repository := "", RemoteCluster := false, Rest := "" }]
    else envs
  let idx := if idx < 0 then (envs.length : Int) - 1 else idx
  let envs := envs.modify (fun e => { e with Owner := cr.Owner }) idx.toNat
  let envs := envs.modify (fun e => { e with Repository := cr.Repository }) idx.toNat
  envs.modify (fun e => { e with RemoteCluster := true }) idx.toNat

/-- Result of a method that returns only an `error`. -/
structure ErrResult where
  err : Option Error
  trace : List Event

/-- The method `Options.createPullRequestOnDevRepository`, lines 199-250. -/
def createPullRequestOnDevRepository (w : Collaborators) (o : Options) (gitURL kind : String) :
    ErrResult :=
  match o.CreatedRepository with
  | none => { err := some (.errorf "no CreatedRepository available"), trace := [] }
  | some cr =>
    let r := w.CloneDevToDir o.Gitter gitURL ""
    let dir := r.1
    let t1 : List Event := [⟨204, .CloneToDir o.Gitter gitURL "", r.2⟩]
    match r.2 with
    | some err =>
      { err := some (.wrap err
          ("failed to clone repository " ++ gitURL ++ " to directory: " ++ dir)),
        trace := t1 }
    | none =>
      let l := w.LoadRequirementsConfig dir false
      let t2 := t1 ++ [⟨208, .LoadRequirementsConfig dir false, l.err⟩]
      match l.err with
      | some err =>
        { err := some (.wrap err
            ("failed to load requirements file in git clone of " ++ gitURL ++
              " in  directory: " ++ dir)),
          trace := t2 }
      | none =>
        let envKey := o.Environment
        let requirements : RequirementsConfig :=
          { l.requirements with
            Environments := linkEnvironments l.requirements.Environments envKey cr }
        let fileName := l.fileName
        let s := w.SaveConfig requirements fileName
        let t3 := t2 ++ [⟨234, .SaveConfig requirements fileName, s⟩]
        match s with
        | some err =>
          { err := some (.wrap err ("failed to save modified requirements file: " ++ fileName)),
            trace := t3 }
        | none =>
          let commitTitle := "fix: add remote environment " ++ envKey
          let commitBody := "adds a link to the new remote environment git repository"
          let commitBody :=
            match o.CreatedScmRepository with
            | some scm => if scm.Link ≠ "" then commitBody ++ " at " ++ scm.Link else commitBody
            | none => commitBody
          let p := w.CreatePullRequest dir gitURL kind "" commitTitle commitBody
          { err := p,
            trace := t3 ++ [⟨249, .CreatePullRequest dir gitURL kind "" commitTitle commitBody, p⟩] }

/-! ## `installGitOperator` (lines 252-269) -/

/-- The method `Options.installGitOperator`, lines 252-269. -/
def installGitOperator (w : Collaborators) (o : Options) (dir : String) : ErrResult :=
  let op := o.Operator
  let op := { op with Dir := dir }
  let op := { op with BatchMode := o.BatchMode }
  let gitURL := match o.CreatedScmRepository with
    | some scm => scm.Link
    | none => ""
  let op := { op with GitURL := gitURL }
  let op := { op with GitUserName := o.ScmClientFactory.GitUsername }
  let op := { op with GitToken := o.ScmClientFactory.GitToken }
  match w.OperatorRun op with
  | some err =>
    { err := some (.wrap err "failed to install the git operator"),
      trace := [⟨263, .OperatorRun op, some err⟩] }
  | none => { err := none, trace := [⟨263, .OperatorRun op, none⟩] }

/-! ## `Run` (lines 100-162) -/

/-- The terminal outcomes of a run: each constructor is one group of
`return` statements of `Options.Run`.  `Failed reason` is a `return` of the
non-nil error `reason`; `CompletedNoOperator` is the `return nil` of line 150;
`Declined` is the `return nil` of line 158; `Completed` is line 161 when
`installGitOperator` returns `nil` (line 268). -/
inductive BootstrapOutcome where
  | Completed
  | CompletedNoOperator
  | Declined
  | Failed (reason : Error)
  deriving DecidableEq, Repr

/-- The `error` value that `Options.Run` hands to its caller. -/
def BootstrapOutcome.returned : BootstrapOutcome → Option Error
  | .Completed => none
  | .CompletedNoOperator => none
  | .Declined => none
  | .Failed reason => some reason

/-- Result of `Options.Run`: the return statement reached, the receiver as
the run leaves it and the collaborator calls made, in order. -/
structure RunResult where
  outcome : BootstrapOutcome
  opts : Options
  trace : List Event

/-- The `error` value returned by the run. -/
def RunResult.err (r : RunResult) : Option Error := r.outcome.returned

/-- Lines 118-162 of `Options.Run`; `gitter` is the non-nil `o.Gitter`. -/
def runWorkflow (c : Common) (w : Collaborators) (o : Options) (gitter : Gitter) : RunResult :=
  let g := gitCloneIfRequired c w o gitter
  let o := g.opts
  let dir := g.dir
  match g.err with
  | some err => { outcome := .Failed err, opts := o, trace := g.trace }
  | none =>
    let ov :=
      w.OverrideRequirements o.Args dir o.RequirementsFile o.Requirements o.Flags o.Environment
    let t := g.trace ++ [⟨123, .OverrideRequirements dir o.RequirementsFile o.Environment, ov.err⟩]
    let o := { o with Requirements := ov.Requirements, Flags := ov.Flags }
    match ov.err with
    | some err =>
      { outcome := .Failed (.wrap err ("failed to override requirements in dir " ++ dir)),
        opts := o, trace := t }
    | none =>
      let v := w.VerifyPreInstall o.DisableVerifyPackages dir
      let t := t ++ [⟨128, .VerifyPreInstall o.DisableVerifyPackages dir, v⟩]
      match v with
      | some err =>
        { outcome := .Failed (.wrap err ("failed to verify requirements in dir " ++ dir)),
          opts := o, trace := t }
      | none =>
        let a := w.AddAndCommitFiles gitter dir "fix: initial code"
        let t := t ++ [⟨135, .AddAndCommitFiles gitter dir "fix: initial code", a.2⟩]
        match a.2 with
        | some err =>
          { outcome := .Failed (.wrap err "failed to add files to git"), opts := o, trace := t }
        | none =>
          let p := w.CreateDevEnvGitRepository dir o.Flags.EnvironmentGitPublic
          let t := t ++
            [⟨139, .CreateDevEnvGitRepository dir o.Flags.EnvironmentGitPublic, p.err⟩]
          let o := { o with CreatedRepository := p.CreatedRepository,
                            CreatedScmRepository := p.CreatedScmRepository }
          match p.err with
          | some err =>
            { outcome := .Failed (.wrap err "failed to create the environment git repository"),
              opts := o, trace := t }
          | none =>
            let pr : ErrResult :=
              if o.DevGitURL ≠ "" then
                createPullRequestOnDevRepository w o o.DevGitURL o.DevGitKind
              else { err := none, trace := [] }
            let t := t ++ pr.trace
            match pr.err with
            | some err =>
              { outcome := .Failed (.wrap err "failed to create Pull Request on dev repository"),
                opts := o, trace := t }
            | none =>
              let install (t : List Event) : RunResult :=
                let i := installGitOperator w o dir
                match i.err with
                | some err => { outcome := .Failed err, opts := o, trace := t ++ i.trace }
                | none => { outcome := .Completed, opts := o, trace := t ++ i.trace }
              if o.NoOperator then { outcome := .CompletedNoOperator, opts := o, trace := t }
              else if !o.BatchMode then
                let message := "do you want to install the git operator into the cluster?"
                let help := "the jx-git-operator is used to install/upgrade the components in the cluster via GitOps"
                let f := w.Confirm message true help
                let t := t ++ [⟨153, .Confirm message true help, f.2⟩]
                match f.2 with
                | some err =>
                  { outcome := .Failed
                      (.wrap err "failed to get confirmation of jx-git-operator install"),
                    opts := o, trace := t }
                | none =>
                  if !f.1 then { outcome := .Declined, opts := o, trace := t }
                  else install t
              else install t

/-- The method `Options.Run`, lines 101-162. -/
def Run (c : Common) (w : Collaborators) (o : Options) : RunResult :=
  let gitter := match o.Gitter with
    | some g => g
    | none => Gitter.cliClient
  let o := { o with Gitter := some gitter }
  if o.DevGitURL ≠ "" then
    if o.DevGitKind = "" then
      let o := { o with DevGitKind := w.SaasGitKind o.DevGitURL }
      if o.DevGitKind = "" then
        { outcome := .Failed (.errorf "missing git kind option: --dev-git-kind"),
          opts := o, trace := [] }
      else runWorkflow c w o gitter
    else runWorkflow c w o gitter
  else runWorkflow c w o gitter

/-! ## Definitions used to state the properties -/

/-- The error `e` inside the wrappers with the messages `msgs`, outermost
message first: `e.wrapWith [m1, m2]` is `wrap (wrap e m2) m1`. -/
def Error.wrapWith (e : Error) : List String → Error
  | [] => e
  | msg :: rest => .wrap (e.wrapWith rest) msg

/-- Holds when the text `target` occurs inside the string `msg`. -/
def mentions (msg target : String) : Prop :=
  target.toList <:+: msg.toList

instance (msg target : String) : Decidable (mentions msg target) := by
  unfold mentions; infer_instance

/-- Holds when the string `msg` begins with the text `start`. -/
def startsWith (msg start : String) : Prop :=
  start.toList <+: msg.toList

instance (msg start : String) : Decidable (startsWith msg start) := by
  unfold startsWith; infer_instance

/-- Marks the calls that `Options.Run` makes after the verifier: commit,
publish, the calls of `createPullRequestOnDevRepository` (its clone is the
`CloneToDir` call of line 204), the confirmation prompt and the operator
installer. -/
def Event.afterVerify (ev : Event) : Bool :=
  match ev.call with
  | .AddAndCommitFiles _ _ _ => true
  | .CreateDevEnvGitRepository _ _ => true
  | .CloneToDir _ _ _ => ev.line == 204
  | .LoadRequirementsConfig _ _ => true
  | .SaveConfig _ _ => true
  | .CreatePullRequest _ _ _ _ _ _ => true
  | .Confirm _ _ _ => true
  | .OperatorRun _ => true
  | .MkdirAll _ => false
  | .TempDir => false
  | .OverrideRequirements _ _ _ => false
  | .VerifyPreInstall _ _ => false

/-- Marks the calls made by `gitCloneIfRequired`: `MkdirAll`, `TempDir` and
the `CloneToDir` call of line 196. -/
def Event.isAcquire (ev : Event) : Bool :=
  match ev.call with
  | .MkdirAll _ => true
  | .TempDir => true
  | .CloneToDir _ _ _ => ev.line == 196
  | _ => false

/-- Marks the calls made by `createPullRequestOnDevRepository`: the
`CloneToDir` call of line 204, `LoadRequirementsConfig`, `SaveConfig` and
`CreatePullRequest`. -/
def Event.isLink (ev : Event) : Bool :=
  match ev.call with
  | .CloneToDir _ _ _ => ev.line == 204
  | .LoadRequirementsConfig _ _ => true
  | .SaveConfig _ _ => true
  | .CreatePullRequest _ _ _ _ _ _ => true
  | _ => false

/-- The path or URL that the code puts into the context message when the
call fails, for the calls where it does: the directory for `MkdirAll`,
`OverrideRequirements`, `VerifyPreInstall` and `LoadRequirementsConfig`, the
URL for the clone of the dev repository and the file name for `SaveConfig`. -/
def Event.namedTarget (ev : Event) : Option String :=
  match ev.call with
  | .MkdirAll dir => some dir
  | .OverrideRequirements dir _ _ => some dir
  | .VerifyPreInstall _ dir => some dir
  | .CloneToDir _ gitURL _ => if ev.line = 204 then some gitURL else none
  | .LoadRequirementsConfig dir _ => some dir
  | .SaveConfig _ fileName => some fileName
  | _ => none

/-- The words by which a user-visible error message names each operation:
the creation of the given directory, of the temporary directory, a clone, the
requirements override, the verification, the commit ("add files to git"), the
publication ("create the environment git repository"), the load and the save
of the requirements file, the pull request, the confirmation and the operator
install. -/
def Event.operationLabel (ev : Event) : String :=
  match ev.call with
  | .MkdirAll _ => "failed to create directory "
  | .TempDir => "failed to create temporary directory"
  | .CloneToDir _ _ _ => "failed to clone repository "
  | .OverrideRequirements _ _ _ => "failed to override requirements in dir "
  | .VerifyPreInstall _ _ => "failed to verify requirements in dir "
  | .AddAndCommitFiles _ _ _ => "failed to add files to git"
  | .CreateDevEnvGitRepository _ _ => "failed to create the environment git repository"
  | .LoadRequirementsConfig _ _ => "failed to load requirements file in git clone of "
  | .SaveConfig _ _ => "failed to save modified requirements file: "
  | .CreatePullRequest _ _ _ _ _ _ => "failed to create Pull Request on dev repository"
  | .Confirm _ _ _ => "failed to get confirmation of jx-git-operator install"
  | .OperatorRun _ => "failed to install the git operator"

/-- The context messages `added` (outermost first) name the failing call `ev`:
the innermost one, the wrapper put directly around the collaborator's error,
begins with the words for the operation of `ev`; every message begins with
"failed to "; and when the code names a path or URL for `ev`, one of the
messages contains it. -/
def Event.contextOk (ev : Event) (added : List String) : Prop :=
  (∃ inner, added.getLast? = some inner ∧ startsWith inner ev.operationLabel) ∧
    (∀ m ∈ added, startsWith m "failed to ") ∧
    ∀ t, ev.namedTarget = some t → ∃ m ∈ added, mentions m t

/-- The three field assignments of lines 230-232 applied to one entry. -/
def stamp (cr : CreatedRepository) (e : EnvironmentConfig) : EnvironmentConfig :=
  { e with Owner := cr.Owner, Repository := cr.Repository, RemoteCluster := true }

/-- The documents passed to `SaveConfig` in a trace, in call order. -/
def savedDocuments : List Event → List RequirementsConfig
  | [] => []
  | ev :: rest =>
    match ev.call with
    | .SaveConfig requirements _ => requirements :: savedDocuments rest
    | _ => savedDocuments rest

/-! ## Sample inputs -/

/-- Two distinct placeholder URLs for the constants of package `common`. -/
def sampleCommon : Common :=
  { DefaultBootRepository := "https://example.com/boot-template.git",
    DefaultEnvironmentHelmfileGitRepoURL := "https://example.com/environment-template.git" }

/-- Collaborators that all succeed: the temporary directory is `/tmp/helmboot-1`,
a clone returns the directory asked for (`/tmp/jx-git-1` when none is given),
the dev repository holds environments `dev` and `staging`, and the user
accepts the confirmation. -/
def okCollaborators : Collaborators :=
  { SaasGitKind := fun url => if url = "https://github.com/acme/dev.git" then "github" else "",
    MkdirAll := fun _ => none,
    TempDir := ("/tmp/helmboot-1", none),
    CloneToDir := fun _ _ dir => (dir, none),
    OverrideRequirements := fun _ _ _ req flags _ => ⟨none, req, flags⟩,
    VerifyPreInstall := fun _ _ => none,
    AddAndCommitFiles := fun _ _ _ => (true, none),
    CreateDevEnvGitRepository := fun _ _ =>
      ⟨none, some ⟨"acme", "env-staging"⟩, some ⟨"https://github.com/acme/env-staging"⟩⟩,
    CloneDevToDir := fun _ _ _ => ("/tmp/jx-git-1", none),
    LoadRequirementsConfig := fun _ _ =>
      ⟨⟨[⟨"dev", "acme", "dev", false, ""⟩, ⟨"staging", "old", "old-repo", false, "x"⟩], ""⟩,
        "/tmp/jx-git-1/jx-requirements.yml", none⟩,
    SaveConfig := fun _ _ => none,
    CreatePullRequest := fun _ _ _ _ _ _ => none,
    Confirm := fun _ _ _ => (true, none),
    OperatorRun := fun _ => none }

/-- Options with every field at its Go zero value. -/
def zeroOptions : Options :=
  { Gitter := none, BatchMode := false, CreatedRepository := none, CreatedScmRepository := none,
    ScmClientFactory := ⟨"", ""⟩, Operator := ⟨"", false, "", "", "", ""⟩,
    DisableVerifyPackages := false, Requirements := ⟨[], ""⟩, Flags := ⟨false, ""⟩,
    Environment := "", InitialGitURL := "", Dir := "", RequirementsFile := "",
    DevGitKind := "", DevGitURL := "", Args := [], NoOperator := false }

/-- The collaborators of `okCollaborators`, except that the verifier fails. -/
def verifyFails : Collaborators :=
  { okCollaborators with VerifyPreInstall := fun _ _ => some (.collab "helm is not installed") }

/-- The collaborators of `okCollaborators`, except that every clone fails. -/
def cloneFails : Collaborators :=
  { okCollaborators with CloneToDir := fun _ _ _ => ("", some (.collab "git clone failed")) }

/-- The collaborators of `okCollaborators`, except that the commit fails. -/
def commitFails : Collaborators :=
  { okCollaborators with
    AddAndCommitFiles := fun _ _ _ => (false, some (.collab "git commit failed")) }

/-- The collaborators of `okCollaborators`, except that the user declines. -/
def userDeclines : Collaborators :=
  { okCollaborators with Confirm := fun _ _ _ => (false, none) }

/-- Options for a remote `staging` environment linked into a dev repository
whose git kind has to be inferred from its URL. -/
def stagingOptions : Options :=
  { zeroOptions with Environment := "staging", DevGitURL := "https://github.com/acme/dev.git",
                     CreatedRepository := some ⟨"acme", "env-staging"⟩ }

/-- Options for a remote `production` environment, absent from the dev repository. -/
def productionOptions : Options :=
  { zeroOptions with Environment := "production",
                     DevGitURL := "https://github.com/acme/dev.git",
                     CreatedRepository := some ⟨"acme", "env-production"⟩ }

/-! ## Lemmas on the environment edit -/

theorem findEnvironment_none (envKey : String) (l : List EnvironmentConfig) (k : Nat)
    (h : ∀ e ∈ l, e.Key ≠ envKey) : findEnvironment envKey l k = -1 := by
  induction l generalizing k with
  | nil => rfl
  | cons e rest ih =>
    have he : e.Key ≠ envKey := h e (List.mem_cons_self _ _)
    simp only [findEnvironment, he, if_false]
    exact ih (k + 1) (fun x hx => h x (List.mem_cons_of_mem _ hx))

theorem findEnvironment_some (envKey : String) (l : List EnvironmentConfig) (k : Nat)
    (h : ∃ e ∈ l, e.Key = envKey) :
    ∃ i, findEnvironment envKey l k = ((k + i : Nat) : Int) ∧
      (∃ old, l[i]? = some old ∧ old.Key = envKey) ∧
      ∀ j, j < i → ∀ x, l[j]? = some x → x.Key ≠ envKey := by
  induction l generalizing k with
  | nil => simp at h
  | cons e rest ih =>
    by_cases he : e.Key = envKey
    · refine ⟨0, ?_, ⟨e, by simp, he⟩, ?_⟩
      · simp [findEnvironment, he]
      · intro j hj; omega
    · have h' : ∃ x ∈ rest, x.Key = envKey := by
        obtain ⟨x, hx, hk⟩ := h
        rcases List.mem_cons.mp hx with rfl | hx
        · exact absurd hk he
        · exact ⟨x, hx, hk⟩
      obtain ⟨i, hi, hold, hfirst⟩ := ih (k + 1) h'
      refine ⟨i + 1, ?_, ?_, ?_⟩
      · simp only [findEnvironment, he, if_false, hi]
        congr 1; omega
      · simpa using hold
      · intro j hj x hx
        cases j with
        | zero => simp at hx; subst hx; exact he
        | succ j => exact hfirst j (by omega) x (by simpa using hx)

theorem modify_stamp (cr : CreatedRepository) (l : List EnvironmentConfig) (n : Nat) :
    ((l.modify (fun e => { e with Owner := cr.Owner }) n).modify
        (fun e => { e with Repository := cr.Repository }) n).modify
        (fun e => { e with RemoteCluster := true }) n = l.modify (stamp cr) n := by
  apply List.ext_getElem?
  intro m
  simp only [List.getElem?_modify]
  cases l[m]? with
  | none => rfl
  | some a => by_cases hnm : n = m <;> simp [hnm, stamp]

theorem linkEnvironments_new (l : List EnvironmentConfig) (envKey : String)
    (cr : CreatedRepository) (h : ∀ e ∈ l, e.Key ≠ envKey) :
    linkEnvironments l envKey cr =
      l ++ [{ Key := envKey, Owner := cr.Owner, Repository := cr.Repository,
              RemoteCluster := true, Rest := "" }] := by
  unfold linkEnvironments
  have hidx : ∀ n : Nat, (((n + 1 : Nat) : Int) - 1).toNat = n := by
    intro n; omega
  simp only [findEnvironment_none envKey l 0 h, show ((-1 : Int) < 0) from by decide, if_true,
    List.length_append, List.length_singleton, hidx, modify_stamp]
  apply List.ext_getElem?
  intro m
  simp only [List.getElem?_modify]
  by_cases hm : m < l.length
  · have hne : l.length ≠ m := by omega
    simp [List.getElem?_append_left hm, hne]
  · by_cases hm' : m = l.length
    · subst hm'
      simp [stamp]
    · have h1 : l.length + 1 ≤ m := by omega
      rw [List.getElem?_eq_none (by simpa using h1), List.getElem?_eq_none (by simpa using h1)]
      rfl

theorem linkEnvironments_existing (l : List EnvironmentConfig) (envKey : String)
    (cr : CreatedRepository) (h : ∃ e ∈ l, e.Key = envKey) :
    ∃ i, linkEnvironments l envKey cr = l.modify (stamp cr) i ∧
      (∃ old, l[i]? = some old ∧ old.Key = envKey) ∧
      ∀ j, j < i → ∀ x, l[j]? = some x → x.Key ≠ envKey := by
  obtain ⟨i, hi, hold, hfirst⟩ := findEnvironment_some envKey l 0 h
  refine ⟨i, ?_, hold, hfirst⟩
  unfold linkEnvironments
  have hnn : ¬ (((0 + i : Nat) : Int) < 0) := by omega
  simp only [hi, hnn, if_false, modify_stamp]
  simp

theorem map_key_modify_stamp (cr : CreatedRepository) (l : List EnvironmentConfig) (n : Nat) :
    (l.modify (stamp cr) n).map (fun e => e.Key) = l.map (fun e => e.Key) := by
  apply List.ext_getElem?
  intro m
  simp only [List.getElem?_map, List.getElem?_modify]
  cases l[m]? with
  | none => rfl
  | some a => by_cases hnm : n = m <;> simp [hnm, stamp]

/-- With a created repository, a successful clone of the dev repository and a
successful load, exactly one document is saved: the loaded one with its
environments edited by lines 213-232. -/
theorem createPullRequestOnDevRepository_saved (w : Collaborators) (o : Options)
    (gitURL kind : String) (cr : CreatedRepository) (dir : String)
    (loaded : RequirementsConfig) (fileName : String)
    (hcr : o.CreatedRepository = some cr)
    (hclone : w.CloneDevToDir o.Gitter gitURL "" = (dir, none))
    (hload : w.LoadRequirementsConfig dir false = ⟨loaded, fileName, none⟩) :
    savedDocuments (createPullRequestOnDevRepository w o gitURL kind).trace =
      [{ loaded with
          Environments := linkEnvironments loaded.Environments o.Environment cr }] := by
  unfold createPullRequestOnDevRepository
  simp only [hcr, hclone, hload]
  split <;> simp [savedDocuments]

/-! ## The claims on the cross-environment link -/

/-- Claim C2: when the clone of the dev repository and the load of its
requirements document succeed, the document saved by
`createPullRequestOnDevRepository` has as many environments as the loaded one
if some loaded entry has the environment key, and exactly one more if none has. -/
theorem createPullRequestOnDevRepository_saved_length (w : Collaborators) (o : Options)
    (gitURL kind : String) (cr : CreatedRepository) (dir : String)
    (loaded : RequirementsConfig) (fileName : String)
    (hcr : o.CreatedRepository = some cr)
    (hclone : w.CloneDevToDir o.Gitter gitURL "" = (dir, none))
    (hload : w.LoadRequirementsConfig dir false = ⟨loaded, fileName, none⟩) :
    ∃ saved, savedDocuments (createPullRequestOnDevRepository w o gitURL kind).trace = [saved] ∧
      ((∃ e ∈ loaded.Environments, e.Key = o.Environment) →
        saved.Environments.length = loaded.Environments.length) ∧
      ((∀ e ∈ loaded.Environments, e.Key ≠ o.Environment) →
        saved.Environments.length = loaded.Environments.length + 1) := by
  refine ⟨_, createPullRequestOnDevRepository_saved w o gitURL kind cr dir loaded fileName
    hcr hclone hload, ?_, ?_⟩
  · intro h
    obtain ⟨i, hi, _, _⟩ := linkEnvironments_existing loaded.Environments o.Environment cr h
    simp [hi, List.length_modify]
  · intro h
    simp [linkEnvironments_new loaded.Environments o.Environment cr h]

/-- Claim C3: the saved environments contain, at some index `i`, an entry with
the environment key, the created repository's owner and name and the remote
flag set; `i` is the index of the first loaded entry with that key when there
is one (the other fields of that entry are kept), otherwise `i` is a new last
index; at every other index the saved and the loaded list agree. -/
theorem createPullRequestOnDevRepository_links_entry (w : Collaborators) (o : Options)
    (gitURL kind : String) (cr : CreatedRepository) (dir : String)
    (loaded : RequirementsConfig) (fileName : String)
    (hcr : o.CreatedRepository = some cr)
    (hclone : w.CloneDevToDir o.Gitter gitURL "" = (dir, none))
    (hload : w.LoadRequirementsConfig dir false = ⟨loaded, fileName, none⟩) :
    ∃ saved i entry,
      savedDocuments (createPullRequestOnDevRepository w o gitURL kind).trace = [saved] ∧
      saved.Environments[i]? = some entry ∧
      entry.Key = o.Environment ∧ entry.Owner = cr.Owner ∧
      entry.Repository = cr.Repository ∧ entry.RemoteCluster = true ∧
      ((∃ e ∈ loaded.Environments, e.Key = o.Environment) →
        (∃ old, loaded.Environments[i]? = some old ∧ old.Key = o.Environment ∧
          entry.Rest = old.Rest) ∧
        (∀ j, j < i → ∀ x, loaded.Environments[j]? = some x → x.Key ≠ o.Environment) ∧
        saved.Environments.length = loaded.Environments.length) ∧
      ((∀ e ∈ loaded.Environments, e.Key ≠ o.Environment) →
        i = loaded.Environments.length ∧
        saved.Environments.length = loaded.Environments.length + 1 ∧ entry.Rest = "") ∧
      (∀ j, j ≠ i → saved.Environments[j]? = loaded.Environments[j]?) ∧
      saved.Rest = loaded.Rest := by
  have hsaved := createPullRequestOnDevRepository_saved w o gitURL kind cr dir loaded fileName
    hcr hclone hload
  by_cases h : ∃ e ∈ loaded.Environments, e.Key = o.Environment
  · obtain ⟨i, hi, ⟨old, hold, hkey⟩, hfirst⟩ :=
      linkEnvironments_existing loaded.Environments o.Environment cr h
    refine ⟨_, i, stamp cr old, hsaved, ?_, hkey, rfl, rfl, rfl, ?_, ?_, ?_, rfl⟩
    · simp [hi, List.getElem?_modify, hold]
    · intro _
      exact ⟨⟨old, hold, hkey, rfl⟩, hfirst, by simp [hi, List.length_modify]⟩
    · intro hno
      obtain ⟨e, he, hk⟩ := h
      exact absurd hk (hno e he)
    · intro j hj
      have hij : i ≠ j := fun hEq => hj hEq.symm
      simp only [hi, List.getElem?_modify, hij, if_false]
      cases loaded.Environments[j]? <;> rfl
  · have hno : ∀ e ∈ loaded.Environments, e.Key ≠ o.Environment := by
      intro e he hk
      exact h ⟨e, he, hk⟩
    have hnew := linkEnvironments_new loaded.Environments o.Environment cr hno
    refine ⟨_, loaded.Environments.length,
      { Key := o.Environment, Owner := cr.Owner, Repository := cr.Repository,
        RemoteCluster := true, Rest := "" }, hsaved, ?_, rfl, rfl, rfl, rfl, ?_, ?_, ?_, rfl⟩
    · simp [hnew]
    · intro hex
      exact absurd hex h
    · intro _
      exact ⟨rfl, by simp [hnew], rfl⟩
    · intro j hj
      simp only [hnew]
      by_cases hlt : j < loaded.Environments.length
      · exact List.getElem?_append_left hlt
      · have hgt : loaded.Environments.length + 1 ≤ j := by omega
        rw [List.getElem?_eq_none (by simpa using hgt), List.getElem?_eq_none (by omega)]

/-- Claim C9: when the loaded environments have pairwise distinct keys, so do
the environments of the document saved by `createPullRequestOnDevRepository`. -/
theorem createPullRequestOnDevRepository_keeps_keys_distinct (w : Collaborators)
    (o : Options) (gitURL kind : String) (cr : CreatedRepository) (dir : String)
    (loaded : RequirementsConfig) (fileName : String)
    (hcr : o.CreatedRepository = some cr)
    (hclone : w.CloneDevToDir o.Gitter gitURL "" = (dir, none))
    (hload : w.LoadRequirementsConfig dir false = ⟨loaded, fileName, none⟩)
    (hdistinct : (loaded.Environments.map (fun e => e.Key)).Nodup) :
    ∃ saved, savedDocuments (createPullRequestOnDevRepository w o gitURL kind).trace = [saved] ∧
      (saved.Environments.map (fun e => e.Key)).Nodup := by
  refine ⟨_, createPullRequestOnDevRepository_saved w o gitURL kind cr dir loaded fileName
    hcr hclone hload, ?_⟩
  by_cases h : ∃ e ∈ loaded.Environments, e.Key = o.Environment
  · obtain ⟨i, hi, _, _⟩ := linkEnvironments_existing loaded.Environments o.Environment cr h
    simp only [hi, map_key_modify_stamp]
    exact hdistinct
  · have hno : ∀ e ∈ loaded.Environments, e.Key ≠ o.Environment := by
      intro e he hk
      exact h ⟨e, he, hk⟩
    simp only [linkEnvironments_new loaded.Environments o.Environment cr hno, List.map_append,
      List.map_cons, List.map_nil]
    refine List.Nodup.append hdistinct (List.nodup_singleton _) ?_
    intro k hk hk'
    simp only [List.mem_singleton] at hk'
    subst hk'
    obtain ⟨e, he, hek⟩ := List.mem_map.mp hk
    exact hno e he hek

/-- Witness of claim C2: the key `staging` is already in the dev repository,
so the saved list keeps its two entries. -/
theorem createPullRequestOnDevRepository_saved_length_witness :
    ∃ saved,
      savedDocuments (createPullRequestOnDevRepository okCollaborators stagingOptions
        "https://github.com/acme/dev.git" "github").trace = [saved] ∧
      saved.Environments.length = 2 := by
  obtain ⟨saved, hsaved, hsame, -⟩ :=
    createPullRequestOnDevRepository_saved_length okCollaborators stagingOptions
      "https://github.com/acme/dev.git" "github" ⟨"acme", "env-staging"⟩ "/tmp/jx-git-1"
      ⟨[⟨"dev", "acme", "dev", false, ""⟩, ⟨"staging", "old", "old-repo", false, "x"⟩], ""⟩
      "/tmp/jx-git-1/jx-requirements.yml" rfl rfl rfl
  exact ⟨saved, hsaved, hsame ⟨⟨"staging", "old", "old-repo", false, "x"⟩, by decide, rfl⟩⟩

/-- Witness of claim C3: the key `production` is new to the dev repository,
so the stamped entry is a new last entry, at index 2. -/
theorem createPullRequestOnDevRepository_links_entry_witness :
    ∃ saved i entry,
      savedDocuments (createPullRequestOnDevRepository okCollaborators productionOptions
        "https://github.com/acme/dev.git" "github").trace = [saved] ∧
      saved.Environments[i]? = some entry ∧
      entry.Key = "production" ∧ entry.Owner = "acme" ∧
      entry.Repository = "env-production" ∧ entry.RemoteCluster = true ∧ i = 2 := by
  obtain ⟨saved, i, entry, hsaved, hentry, hkey, howner, hrepo, hremote, -, hnew, -, -⟩ :=
    createPullRequestOnDevRepository_links_entry okCollaborators productionOptions
      "https://github.com/acme/dev.git" "github" ⟨"acme", "env-production"⟩ "/tmp/jx-git-1"
      ⟨[⟨"dev", "acme", "dev", false, ""⟩, ⟨"staging", "old", "old-repo", false, "x"⟩], ""⟩
      "/tmp/jx-git-1/jx-requirements.yml" rfl rfl rfl
  exact ⟨saved, i, entry, hsaved, hentry, hkey, howner, hrepo, hremote, (hnew (by decide)).1⟩

/-- Witness of claim C9: the dev repository holds the distinct keys `dev` and
`staging`; after linking `staging` the saved keys are still distinct. -/
theorem createPullRequestOnDevRepository_keeps_keys_distinct_witness :
    ∃ saved,
      savedDocuments (createPullRequestOnDevRepository okCollaborators stagingOptions
        "https://github.com/acme/dev.git" "github").trace = [saved] ∧
      (saved.Environments.map (fun e => e.Key)).Nodup :=
  createPullRequestOnDevRepository_keeps_keys_distinct okCollaborators stagingOptions
    "https://github.com/acme/dev.git" "github" ⟨"acme", "env-staging"⟩ "/tmp/jx-git-1"
    ⟨[⟨"dev", "acme", "dev", false, ""⟩, ⟨"staging", "old", "old-repo", false, "x"⟩], ""⟩
    "/tmp/jx-git-1/jx-requirements.yml" rfl rfl rfl (by decide)

/-! ## Lemmas on the call traces -/

theorem gitCloneIfRequired_trace_lines (c : Common) (w : Collaborators) (o : Options)
    (gitter : Gitter) :
    ∀ ev ∈ (gitCloneIfRequired c w o gitter).trace,
      (ev.line = 183 ∨ ev.line = 188 ∨ ev.line = 196) ∧ ev.afterVerify = false := by
  intro ev hev
  unfold gitCloneIfRequired at hev
  simp only at hev
  repeat' split at hev
  all_goals
    simp only [List.mem_cons, List.mem_singleton, List.not_mem_nil, or_false] at hev
  all_goals first
    | (subst hev; simp [Event.afterVerify])
    | (rcases hev with rfl | rfl <;> simp [Event.afterVerify])

theorem gitCloneIfRequired_calls (c : Common) (w : Collaborators) (o : Options)
    (gitter : Gitter) :
    ∀ ev ∈ (gitCloneIfRequired c w o gitter).trace, ev.isAcquire = true := by
  intro ev hev
  unfold gitCloneIfRequired at hev
  simp only at hev
  repeat' split at hev
  all_goals
    simp only [List.mem_cons, List.mem_singleton, List.not_mem_nil, or_false] at hev
  all_goals first
    | (subst hev; simp [Event.isAcquire])
    | (rcases hev with rfl | rfl <;> simp [Event.isAcquire])

theorem createPullRequestOnDevRepository_calls (w : Collaborators) (o : Options)
    (gitURL kind : String) :
    ∀ ev ∈ (createPullRequestOnDevRepository w o gitURL kind).trace, ev.isLink = true := by
  intro ev hev
  unfold createPullRequestOnDevRepository at hev
  simp only at hev
  repeat' split at hev
  all_goals
    simp only [List.mem_cons, List.mem_singleton, List.mem_append, List.not_mem_nil,
      or_false] at hev
  all_goals repeat' (obtain hev | hev := (hev : _ ∨ _))
  all_goals
    subst hev
    simp [Event.isLink]

theorem installGitOperator_calls (w : Collaborators) (o : Options) (dir : String) :
    ∀ ev ∈ (installGitOperator w o dir).trace, ∃ op, ev.call = .OperatorRun op := by
  intro ev hev
  unfold installGitOperator at hev
  simp only at hev
  split at hev <;> simp only [List.mem_singleton] at hev <;> subst hev <;> exact ⟨_, rfl⟩

theorem runWorkflow_verify_failure (c : Common) (w : Collaborators) (o : Options)
    (gitter : Gitter) (ev : Event) (d : Bool) (dir : String) (e : Error)
    (hev : ev ∈ (runWorkflow c w o gitter).trace)
    (hcall : ev.call = .VerifyPreInstall d dir) (herr : ev.err = some e) :
    (runWorkflow c w o gitter).outcome =
        .Failed (.wrap e ("failed to verify requirements in dir " ++ dir)) ∧
      (runWorkflow c w o gitter).trace.getLast? = some ev ∧
      ∀ ev' ∈ (runWorkflow c w o gitter).trace, ev'.afterVerify = false := by
  have hG := gitCloneIfRequired_calls c w o gitter
  have hG' := gitCloneIfRequired_trace_lines c w o gitter
  unfold runWorkflow at hev ⊢
  simp only at hev ⊢
  generalize gitCloneIfRequired c w o gitter = G at hev hG hG' ⊢
  have hnotG : ev ∉ G.trace := by
    intro hmem
    have := hG ev hmem
    simp [Event.isAcquire, hcall] at this
  cases hge : G.err with
  | some err =>
    simp only [hge] at hev
    exact absurd hev hnotG
  | none =>
    simp only [hge] at hev ⊢
    generalize w.OverrideRequirements G.opts.Args G.dir G.opts.RequirementsFile
      G.opts.Requirements G.opts.Flags G.opts.Environment = ov at hev ⊢
    cases hov : ov.err with
    | some err =>
      simp only [hov, List.mem_append, List.mem_singleton] at hev
      rcases hev with hev | hev
      · exact absurd hev hnotG
      · subst hev
        simp at hcall
    | none =>
      simp only [hov] at hev ⊢
      cases hv : w.VerifyPreInstall G.opts.DisableVerifyPackages G.dir with
      | some err =>
        simp only [hv, List.mem_append, List.mem_singleton] at hev ⊢
        rcases hev with (hev | hev) | hev
        · exact absurd hev hnotG
        · subst hev
          simp at hcall
        · subst hev
          simp only [Call.VerifyPreInstall.injEq] at hcall
          simp only [Option.some.injEq] at herr
          obtain ⟨rfl, rfl⟩ := hcall
          subst herr
          refine ⟨rfl, by simp, ?_⟩
          intro ev' hev'
          rcases hev' with (hev' | hev') | hev'
          · exact (hG' ev' hev').2
          · subst hev'; rfl
          · subst hev'; rfl
      | none =>
        exfalso
        have hP := createPullRequestOnDevRepository_calls w
        have hI := installGitOperator_calls w
        simp only [hv] at hev
        repeat' split at hev
        all_goals
          simp only [List.mem_append, List.mem_singleton] at hev
        all_goals repeat' (obtain hev | hev := (hev : _ ∨ _))
        all_goals first
          | exact absurd hev hnotG
          | (have hlink := hP _ _ _ ev hev; simp [Event.isLink, hcall] at hlink; done)
          | (have hop := hI _ _ ev hev; simp [hcall] at hop; done)
          | (subst hev; simp at hcall; done)
          | (subst hev; simp at herr; done)
          | (simp at hev; done)

/-! ## Lemmas on context messages -/

theorem startsWith_append (a b start : String) (h : startsWith a start) :
    startsWith (a ++ b) start := by
  unfold startsWith at h ⊢
  show start.data <+: (a ++ b).data
  rw [String.data_append]
  exact h.trans (List.prefix_append _ _)

theorem mentions_append_left (a b target : String) (h : mentions a target) :
    mentions (a ++ b) target := by
  unfold mentions at h ⊢
  show target.data <:+: (a ++ b).data
  rw [String.data_append]
  exact h.trans (List.prefix_append _ _).isInfix

theorem mentions_append_right (a target : String) : mentions (a ++ target) target := by
  unfold mentions
  show target.data <:+: (a ++ target).data
  rw [String.data_append]
  exact (List.suffix_append _ _).isInfix

theorem startsWith_self (a : String) : startsWith a a :=
  List.prefix_refl _

theorem startsWith_self_append (a b : String) : startsWith (a ++ b) a :=
  startsWith_append a b a (startsWith_self a)

theorem contextOk_cons (ev : Event) (msg : String) (added : List String)
    (hmsg : startsWith msg "failed to ") (h : ev.contextOk added) :
    ev.contextOk (msg :: added) := by
  obtain ⟨⟨inner, hinner, hlabel⟩, hall, htarget⟩ := h
  refine ⟨⟨inner, ?_, hlabel⟩, ?_, ?_⟩
  · cases added with
    | nil => simp at hinner
    | cons a rest => simpa [List.getLast?_cons_cons] using hinner
  · intro m hm
    rcases List.mem_cons.mp hm with rfl | hm
    · exact hmsg
    · exact hall m hm
  · intro t ht
    obtain ⟨m, hm, hmt⟩ := htarget t ht
    exact ⟨m, List.mem_cons_of_mem _ hm, hmt⟩

theorem contextOk_single (ev : Event) (msg : String)
    (hlabel : startsWith msg ev.operationLabel)
    (hmsg : startsWith msg "failed to ")
    (htarget : ∀ t, ev.namedTarget = some t → mentions msg t) :
    ev.contextOk [msg] := by
  refine ⟨⟨msg, rfl, hlabel⟩, ?_, ?_⟩
  · intro m hm
    rw [List.mem_singleton] at hm
    subst hm
    exact hmsg
  · intro t ht
    exact ⟨msg, List.mem_singleton.mpr rfl, htarget t ht⟩

theorem gitCloneIfRequired_shape (c : Common) (w : Collaborators) (o : Options)
    (gitter : Gitter) :
    ∃ gitURL dir,
      gitCloneIfRequired c w o gitter =
        if dir ≠ "" then
          match w.MkdirAll dir with
          | some err =>
            { dir := "", err := some (.wrap err ("failed to create directory " ++ dir)),
              opts := (gitCloneIfRequired c w o gitter).opts,
              trace := [⟨183, .MkdirAll dir, some err⟩] }
          | none =>
            { dir := (w.CloneToDir gitter gitURL dir).1, err := (w.CloneToDir gitter gitURL dir).2,
              opts := (gitCloneIfRequired c w o gitter).opts,
              trace := [⟨183, .MkdirAll dir, none⟩,
                ⟨196, .CloneToDir (some gitter) gitURL dir, (w.CloneToDir gitter gitURL dir).2⟩] }
        else
          match w.TempDir with
          | (_, some err) =>
            { dir := "", err := some (.wrap err "failed to create temporary directory"),
              opts := (gitCloneIfRequired c w o gitter).opts,
              trace := [⟨188, .TempDir, some err⟩] }
          | (tmp, none) =>
            { dir := (w.CloneToDir gitter gitURL tmp).1, err := (w.CloneToDir gitter gitURL tmp).2,
              opts := (gitCloneIfRequired c w o gitter).opts,
              trace := [⟨188, .TempDir, none⟩,
                ⟨196, .CloneToDir (some gitter) gitURL tmp, (w.CloneToDir gitter gitURL tmp).2⟩] } := by
  refine ⟨(gitCloneIfRequired c w o gitter).opts.InitialGitURL, o.Dir, ?_⟩
  unfold gitCloneIfRequired
  simp only
  repeat' split
  all_goals simp_all
theorem gitCloneIfRequired_errors (c : Common) (w : Collaborators) (o : Options)
    (gitter : Gitter) :
    ((gitCloneIfRequired c w o gitter).err = none →
        ∀ ev ∈ (gitCloneIfRequired c w o gitter).trace, ev.err = none) ∧
      (∀ ev ∈ (gitCloneIfRequired c w o gitter).trace, ∀ e, ev.err = some e →
        (ev.line = 196 ∧ (gitCloneIfRequired c w o gitter).err = some e) ∨
        (ev.line ≠ 196 ∧ ∃ msg, (gitCloneIfRequired c w o gitter).err = some (.wrap e msg) ∧
          ev.contextOk [msg])) ∧
      (∀ r, (gitCloneIfRequired c w o gitter).err = some r →
        ∃ ev ∈ (gitCloneIfRequired c w o gitter).trace, ev.err ≠ none) := by
  obtain ⟨gitURL, dir, hshape⟩ := gitCloneIfRequired_shape c w o gitter
  generalize gitCloneIfRequired c w o gitter = G at hshape ⊢
  rw [hshape]
  clear hshape
  split
  · cases hm : w.MkdirAll dir with
    | some err =>
      refine ⟨by simp, ?_, ?_⟩
      · intro ev hev e herr
        simp only [List.mem_singleton] at hev
        subst hev
        simp only [Option.some.injEq] at herr
        subst herr
        refine Or.inr ⟨by simp, _, rfl, contextOk_single _ _ ?_ ?_ ?_⟩
        · exact startsWith_self_append _ _
        · exact startsWith_append _ _ _ (by decide)
        · intro t ht
          simp only [Event.namedTarget, Option.some.injEq] at ht
          subst ht
          exact mentions_append_right _ _
      · intro r _
        exact ⟨_, List.mem_singleton.mpr rfl, by simp⟩
    | none =>
      refine ⟨?_, ?_, ?_⟩
      · intro h ev hev
        simp only [List.mem_cons, List.mem_singleton, List.not_mem_nil, or_false] at hev
        rcases hev with rfl | rfl
        · rfl
        · exact h
      · intro ev hev e herr
        simp only [List.mem_cons, List.mem_singleton, List.not_mem_nil, or_false] at hev
        rcases hev with rfl | rfl
        · simp at herr
        · exact Or.inl ⟨rfl, herr⟩
      · intro r hr
        simp only at hr
        exact ⟨_, List.mem_cons_of_mem _ (List.mem_singleton.mpr rfl), by simp [hr]⟩
  · split
    · refine ⟨by simp, ?_, ?_⟩
      · intro ev hev e herr
        simp only [List.mem_singleton] at hev
        subst hev
        simp only [Option.some.injEq] at herr
        subst herr
        refine Or.inr ⟨by simp, _, rfl, contextOk_single _ _ (startsWith_self _) (by decide) ?_⟩
        intro t ht
        simp [Event.namedTarget] at ht
      · intro r _
        exact ⟨_, List.mem_singleton.mpr rfl, by simp⟩
    · refine ⟨?_, ?_, ?_⟩
      · intro h ev hev
        simp only [List.mem_cons, List.mem_singleton, List.not_mem_nil, or_false] at hev
        rcases hev with rfl | rfl
        · rfl
        · exact h
      · intro ev hev e herr
        simp only [List.mem_cons, List.mem_singleton, List.not_mem_nil, or_false] at hev
        rcases hev with rfl | rfl
        · simp at herr
        · exact Or.inl ⟨rfl, herr⟩
      · intro r hr
        simp only at hr
        exact ⟨_, List.mem_cons_of_mem _ (List.mem_singleton.mpr rfl), by simp [hr]⟩

theorem installGitOperator_errors (w : Collaborators) (o : Options) (dir : String) :
    ((installGitOperator w o dir).err = none →
        ∀ ev ∈ (installGitOperator w o dir).trace, ev.err = none) ∧
      (∀ ev ∈ (installGitOperator w o dir).trace, ∀ e, ev.err = some e →
        (installGitOperator w o dir).err =
          some (.wrap e "failed to install the git operator")) ∧
      (∀ r, (installGitOperator w o dir).err = some r →
        ∃ ev ∈ (installGitOperator w o dir).trace, ev.err ≠ none) := by
  unfold installGitOperator
  simp only
  split
  · refine ⟨by simp, ?_, ?_⟩
    · intro ev hev e herr
      simp only [List.mem_singleton] at hev
      subst hev
      simp only [Option.some.injEq] at herr
      subst herr
      rfl
    · intro r _
      exact ⟨_, List.mem_singleton.mpr rfl, by simp⟩
  · refine ⟨?_, ?_, by simp⟩
    · intro _ ev hev
      simp only [List.mem_singleton] at hev
      subst hev
      rfl
    · intro ev hev e herr
      simp only [List.mem_singleton] at hev
      subst hev
      simp at herr

theorem createPullRequestOnDevRepository_errors (w : Collaborators) (o : Options)
    (gitURL kind : String) :
    ((createPullRequestOnDevRepository w o gitURL kind).err = none →
        ∀ ev ∈ (createPullRequestOnDevRepository w o gitURL kind).trace, ev.err = none) ∧
      (∀ ev ∈ (createPullRequestOnDevRepository w o gitURL kind).trace, ∀ e, ev.err = some e →
        ∃ added, (createPullRequestOnDevRepository w o gitURL kind).err =
            some (e.wrapWith added) ∧
          ev.contextOk ("failed to create Pull Request on dev repository" :: added)) ∧
      (∀ r, (createPullRequestOnDevRepository w o gitURL kind).err = some r →
        o.CreatedRepository = none ∨
        ∃ ev ∈ (createPullRequestOnDevRepository w o gitURL kind).trace, ev.err ≠ none) := by
  unfold createPullRequestOnDevRepository
  simp only
  cases hcr : o.CreatedRepository with
  | none => simp
  | some cr =>
    simp only
    generalize w.CloneDevToDir o.Gitter gitURL "" = cl
    cases hcl : cl.2 with
    | some err =>
      refine ⟨by simp, ?_, ?_⟩
      · intro ev hev e herr
        simp only [List.mem_singleton] at hev
        subst hev
        simp only [Option.some.injEq] at herr
        subst herr
        refine ⟨[_], rfl,
          contextOk_cons _ _ _ (by decide) (contextOk_single _ _ ?_ ?_ ?_)⟩
        · exact startsWith_append _ _ _ (startsWith_append _ _ _
            (startsWith_self_append _ _))
        · exact startsWith_append _ _ _ (startsWith_append _ _ _
            (startsWith_append _ _ _ (by decide)))
        · intro t ht
          simp only [Event.namedTarget, if_true, Option.some.injEq] at ht
          subst ht
          exact mentions_append_left _ _ _ (mentions_append_left _ _ _
            (mentions_append_right _ _))
      · intro r _
        exact Or.inr ⟨_, List.mem_singleton.mpr rfl, by simp⟩
    | none =>
      simp only
      generalize w.LoadRequirementsConfig cl.1 false = l
      cases hl : l.err with
      | some err =>
        refine ⟨by simp, ?_, ?_⟩
        · intro ev hev e herr
          simp only [List.mem_append, List.mem_singleton] at hev
          rcases hev with rfl | rfl
          · simp at herr
          · simp only [Option.some.injEq] at herr
            subst herr
            refine ⟨[_], rfl,
              contextOk_cons _ _ _ (by decide) (contextOk_single _ _ ?_ ?_ ?_)⟩
            · exact startsWith_append _ _ _ (startsWith_append _ _ _
                (startsWith_self_append _ _))
            · exact startsWith_append _ _ _ (startsWith_append _ _ _
                (startsWith_append _ _ _ (by decide)))
            · intro t ht
              simp only [Event.namedTarget, Option.some.injEq] at ht
              subst ht
              exact mentions_append_right _ _
        · intro r _
          exact Or.inr ⟨_, List.mem_append_right _ (List.mem_singleton.mpr rfl), by simp⟩
      | none =>
        simp only
        generalize w.SaveConfig _ _ = s
        cases s with
        | some err =>
          refine ⟨by simp, ?_, ?_⟩
          · intro ev hev e herr
            simp only [List.mem_append, List.mem_singleton] at hev
            rcases hev with (rfl | rfl) | rfl
            · simp at herr
            · simp at herr
            · simp only [Option.some.injEq] at herr
              subst herr
              refine ⟨[_], rfl,
                contextOk_cons _ _ _ (by decide) (contextOk_single _ _ ?_ ?_ ?_)⟩
              · exact startsWith_self_append _ _
              · exact startsWith_append _ _ _ (by decide)
              · intro t ht
                simp only [Event.namedTarget, Option.some.injEq] at ht
                subst ht
                exact mentions_append_right _ _
          · intro r _
            exact Or.inr ⟨_, List.mem_append_right _ (List.mem_singleton.mpr rfl), by simp⟩
        | none =>
          simp only
          generalize w.CreatePullRequest _ _ _ _ _ _ = p
          refine ⟨?_, ?_, ?_⟩
          · intro hp ev hev
            simp only [List.mem_append, List.mem_singleton] at hev
            rcases hev with ((rfl | rfl) | rfl) | rfl
            · rfl
            · rfl
            · rfl
            · exact hp
          · intro ev hev e herr
            simp only [List.mem_append, List.mem_singleton] at hev
            rcases hev with ((rfl | rfl) | rfl) | rfl
            · simp at herr
            · simp at herr
            · simp at herr
            · refine ⟨[], herr, contextOk_single _ _ (startsWith_self _) (by decide) ?_⟩
              intro t ht
              simp [Event.namedTarget] at ht
          · intro r hr
            exact Or.inr ⟨_, List.mem_append_right _ (List.mem_singleton.mpr rfl), by simp [hr]⟩

theorem linkStep_errors (w : Collaborators) (o : Options) (gitURL kind : String) (b : Prop)
    [Decidable b] (pr : ErrResult)
    (hpr : (if b then createPullRequestOnDevRepository w o gitURL kind
      else { err := none, trace := [] }) = pr) :
    (pr.err = none → ∀ ev ∈ pr.trace, ev.err = none) ∧
      (∀ ev ∈ pr.trace, ∀ e, ev.err = some e →
        ∃ added, pr.err = some (e.wrapWith added) ∧
          ev.contextOk ("failed to create Pull Request on dev repository" :: added)) ∧
      (∀ r, pr.err = some r →
        (b ∧ o.CreatedRepository = none) ∨ ∃ ev ∈ pr.trace, ev.err ≠ none) ∧
      (∀ ev ∈ pr.trace, ev.isLink = true) := by
  subst hpr
  split
  · rename_i hb
    refine ⟨(createPullRequestOnDevRepository_errors w o gitURL kind).1,
      (createPullRequestOnDevRepository_errors w o gitURL kind).2.1, ?_,
      createPullRequestOnDevRepository_calls w o gitURL kind⟩
    intro r hr
    rcases (createPullRequestOnDevRepository_errors w o gitURL kind).2.2 r hr with h | h
    · exact Or.inl ⟨hb, h⟩
    · exact Or.inr h
  · simp

theorem runWorkflow_wraps (c : Common) (w : Collaborators) (o : Options)
    (gitter : Gitter) (ev : Event) (e : Error)
    (hev : ev ∈ (runWorkflow c w o gitter).trace) (herr : ev.err = some e)
    (hline : ev.line ≠ 196) :
    ∃ added, added ≠ [] ∧
      (runWorkflow c w o gitter).outcome = .Failed (e.wrapWith added) ∧
      ev.contextOk added := by
  have hGe := gitCloneIfRequired_errors c w o gitter
  unfold runWorkflow at hev ⊢
  simp only at hev ⊢
  generalize gitCloneIfRequired c w o gitter = G at hev hGe ⊢
  cases hge : G.err with
  | some err =>
    simp only [hge] at hev ⊢
    rcases hGe.2.1 ev hev e herr with ⟨h196, _⟩ | ⟨_, msg, hmsg, hok⟩
    · exact absurd h196 hline
    · rw [hge] at hmsg
      simp only [Option.some.injEq] at hmsg
      subst hmsg
      exact ⟨[msg], by simp, rfl, hok⟩
  | none =>
    have hGnone := hGe.1 hge
    simp only [hge] at hev ⊢
    generalize w.OverrideRequirements G.opts.Args G.dir G.opts.RequirementsFile
      G.opts.Requirements G.opts.Flags G.opts.Environment = ov at hev ⊢
    cases hov : ov.err with
    | some err =>
      simp only [hov, List.mem_append, List.mem_singleton] at hev ⊢
      rcases hev with hev | hev
      · have := hGnone ev hev
        simp [herr] at this
      · subst hev
        simp only [Option.some.injEq] at herr
        subst herr
        refine ⟨[_], by simp, rfl, contextOk_single _ _ ?_ ?_ ?_⟩
        · exact startsWith_self_append _ _
        · exact startsWith_append _ _ _ (by decide)
        · intro t ht
          simp only [Event.namedTarget, Option.some.injEq] at ht
          subst ht
          exact mentions_append_right _ _
    | none =>
      simp only [hov] at hev ⊢
      cases hv : w.VerifyPreInstall G.opts.DisableVerifyPackages G.dir with
      | some err =>
        simp only [hv, List.mem_append, List.mem_singleton] at hev ⊢
        rcases hev with (hev | hev) | hev
        · have := hGnone ev hev
          simp [herr] at this
        · subst hev
          simp at herr
        · subst hev
          simp only [Option.some.injEq] at herr
          subst herr
          refine ⟨[_], by simp, rfl, contextOk_single _ _ ?_ ?_ ?_⟩
          · exact startsWith_self_append _ _
          · exact startsWith_append _ _ _ (by decide)
          · intro t ht
            simp only [Event.namedTarget, Option.some.injEq] at ht
            subst ht
            exact mentions_append_right _ _
      | none =>
        simp only [hv] at hev ⊢
        cases ha : (w.AddAndCommitFiles gitter G.dir "fix: initial code").2 with
        | some err =>
          simp only [ha, List.mem_append, List.mem_singleton] at hev ⊢
          rcases hev with ((hev | hev) | hev) | hev
          · have := hGnone ev hev
            simp [herr] at this
          · subst hev
            simp at herr
          · subst hev
            simp at herr
          · subst hev
            simp only [Option.some.injEq] at herr
            subst herr
            refine ⟨[_], by simp, rfl, contextOk_single _ _ (startsWith_self _) (by decide) ?_⟩
            intro t ht
            simp [Event.namedTarget] at ht
        | none =>
          simp only [ha] at hev ⊢
          generalize w.CreateDevEnvGitRepository G.dir ov.Flags.EnvironmentGitPublic = p at hev ⊢
          cases hp : p.err with
          | some err =>
            simp only [hp, List.mem_append, List.mem_singleton] at hev ⊢
            rcases hev with (((hev | hev) | hev) | hev) | hev
            · have := hGnone ev hev
              simp [herr] at this
            · subst hev
              simp at herr
            · subst hev
              simp at herr
            · subst hev
              simp at herr
            · subst hev
              simp only [Option.some.injEq] at herr
              subst herr
              refine ⟨[_], by simp, rfl, contextOk_single _ _ (startsWith_self _) (by decide) ?_⟩
              intro t ht
              simp [Event.namedTarget] at ht
          | none =>
            simp only [hp] at hev ⊢
            generalize hpr : (if G.opts.DevGitURL ≠ "" then createPullRequestOnDevRepository w _ _ _
              else ({ err := none, trace := [] } : ErrResult)) = pr at hev ⊢
            obtain ⟨hPnone, hPerr, -, -⟩ := linkStep_errors _ _ _ _ _ _ hpr
            clear hpr
            cases hpe : pr.err with
            | some err =>
              simp only [hpe, List.mem_append, List.mem_singleton] at hev ⊢
              rcases hev with ((((hev | hev) | hev) | hev) | hev) | hev
              · have := hGnone ev hev
                simp [herr] at this
              · subst hev
                simp at herr
              · subst hev
                simp at herr
              · subst hev
                simp at herr
              · subst hev
                simp at herr
              · obtain ⟨added, hadd, hok⟩ := hPerr ev hev e herr
                rw [hpe] at hadd
                simp only [Option.some.injEq] at hadd
                subst hadd
                exact ⟨"failed to create Pull Request on dev repository" :: added, by simp, rfl,
                  hok⟩
            | none =>
              have hPn := hPnone hpe
              simp only [hpe] at hev ⊢
              generalize hi : installGitOperator w _ G.dir = i at hev ⊢
              obtain ⟨hInone, hIerr, -⟩ := hi ▸ installGitOperator_errors w _ G.dir
              have hIcalls : ∀ x ∈ i.trace, ∃ op, x.call = .OperatorRun op :=
                hi ▸ installGitOperator_calls w _ G.dir
              clear hi
              generalize w.Confirm _ _ _ = f at hev ⊢
              by_cases hno : G.opts.NoOperator = true
              · exfalso
                rw [if_pos hno] at hev
                simp only [List.mem_append, List.mem_singleton] at hev
                rcases hev with ((((hev | hev) | hev) | hev) | hev) | hev
                · have := hGnone ev hev
                  simp [herr] at this
                · subst hev
                  simp at herr
                · subst hev
                  simp at herr
                · subst hev
                  simp at herr
                · subst hev
                  simp at herr
                · have := hPn ev hev
                  simp [herr] at this
              · have hearly : ∀ x, x ∈ G.trace ++
                    [⟨123, .OverrideRequirements G.dir G.opts.RequirementsFile G.opts.Environment,
                      none⟩] ++
                    [⟨128, .VerifyPreInstall G.opts.DisableVerifyPackages G.dir, none⟩] ++
                    [⟨135, .AddAndCommitFiles gitter G.dir "fix: initial code", none⟩] ++
                    [⟨139, .CreateDevEnvGitRepository G.dir ov.Flags.EnvironmentGitPublic, none⟩] ++
                    pr.trace → x.err = none := by
                  intro x hx
                  simp only [List.mem_append, List.mem_singleton] at hx
                  rcases hx with ((((hx | hx) | hx) | hx) | hx) | hx
                  · exact hGnone x hx
                  · subst hx; rfl
                  · subst hx; rfl
                  · subst hx; rfl
                  · subst hx; rfl
                  · exact hPn x hx
                generalize G.trace ++
                    [⟨123, .OverrideRequirements G.dir G.opts.RequirementsFile G.opts.Environment,
                      none⟩] ++
                    [⟨128, .VerifyPreInstall G.opts.DisableVerifyPackages G.dir, none⟩] ++
                    [⟨135, .AddAndCommitFiles gitter G.dir "fix: initial code", none⟩] ++
                    [⟨139, .CreateDevEnvGitRepository G.dir ov.Flags.EnvironmentGitPublic, none⟩] ++
                    pr.trace = early at hev hearly ⊢
                have hinstall : ∀ (t : List Event) (opts : Options), (∀ x ∈ t, x.err = none) →
                    ev ∈ (match i.err with
                      | some err =>
                        ({ outcome := .Failed err, opts := opts, trace := t ++ i.trace } : RunResult)
                      | none =>
                        { outcome := .Completed, opts := opts, trace := t ++ i.trace }).trace →
                    ∃ added, added ≠ [] ∧
                      (match i.err with
                      | some err =>
                        ({ outcome := .Failed err, opts := opts, trace := t ++ i.trace } : RunResult)
                      | none =>
                        { outcome := .Completed, opts := opts, trace := t ++ i.trace }).outcome =
                        .Failed (e.wrapWith added) ∧
                      ev.contextOk added := by
                  intro t opts ht hmem
                  have hmem' : ev ∈ t ++ i.trace := by
                    cases hie : i.err <;> simpa [hie] using hmem
                  rcases List.mem_append.mp hmem' with hmem' | hmem'
                  · have := ht ev hmem'
                    simp [herr] at this
                  · have hie := hIerr ev hmem' e herr
                    refine ⟨["failed to install the git operator"], by simp, ?_,
                      contextOk_single _ _ ?_ (by decide) ?_⟩
                    · simp only [hie]
                      rfl
                    · obtain ⟨op, hop⟩ := hIcalls ev hmem'
                      simp only [Event.operationLabel, hop]
                      exact startsWith_self _
                    · intro t' ht'
                      obtain ⟨op, hop⟩ := hIcalls ev hmem'
                      simp [Event.namedTarget, hop] at ht'
                rw [if_neg hno] at hev ⊢
                by_cases hb : (!G.opts.BatchMode) = true
                · rw [if_pos hb] at hev ⊢
                  cases hf : f.2 with
                  | some err =>
                    simp only [hf, List.mem_append, List.mem_singleton] at hev ⊢
                    rcases hev with hev | hev
                    · have := hearly ev hev
                      simp [herr] at this
                    · subst hev
                      simp only [Option.some.injEq] at herr
                      subst herr
                      refine ⟨[_], by simp, rfl, contextOk_single _ _ (startsWith_self _) (by decide) ?_⟩
                      intro t ht
                      simp [Event.namedTarget] at ht
                  | none =>
                    simp only [hf] at hev ⊢
                    by_cases hd : (!f.1) = true
                    · exfalso
                      rw [if_pos hd] at hev
                      simp only [List.mem_append, List.mem_singleton] at hev
                      rcases hev with hev | hev
                      · have := hearly ev hev
                        simp [herr] at this
                      · subst hev
                        simp at herr
                    · rw [if_neg hd] at hev ⊢
                      refine hinstall _ _ ?_ hev
                      intro x hx
                      simp only [List.mem_append, List.mem_singleton] at hx
                      rcases hx with hx | hx
                      · exact hearly x hx
                      · subst hx; rfl
                · rw [if_neg hb] at hev ⊢
                  exact hinstall _ _ hearly hev

theorem gitCloneIfRequired_opts (c : Common) (w : Collaborators) (o : Options)
    (gitter : Gitter) :
    (gitCloneIfRequired c w o gitter).opts.NoOperator = o.NoOperator ∧
      (gitCloneIfRequired c w o gitter).opts.DevGitURL = o.DevGitURL ∧
      (gitCloneIfRequired c w o gitter).opts.BatchMode = o.BatchMode ∧
      (gitCloneIfRequired c w o gitter).opts.CreatedRepository = o.CreatedRepository := by
  unfold gitCloneIfRequired
  simp only
  repeat' split
  all_goals simp

theorem runWorkflow_failed_cause (c : Common) (w : Collaborators) (o : Options)
    (gitter : Gitter) (reason : Error)
    (hfail : (runWorkflow c w o gitter).outcome = .Failed reason) :
    (∃ ev ∈ (runWorkflow c w o gitter).trace, ev.err ≠ none) ∨
      (o.DevGitURL ≠ "" ∧ (runWorkflow c w o gitter).opts.CreatedRepository = none) := by
  have hGe := gitCloneIfRequired_errors c w o gitter
  have hGo := (gitCloneIfRequired_opts c w o gitter).2.1
  unfold runWorkflow at hfail ⊢
  simp only at hfail ⊢
  generalize gitCloneIfRequired c w o gitter = G at hfail hGe hGo ⊢
  cases hge : G.err with
  | some err =>
    simp only [hge] at hfail ⊢
    exact Or.inl (hGe.2.2 err hge)
  | none =>
    simp only [hge] at hfail ⊢
    generalize w.OverrideRequirements G.opts.Args G.dir G.opts.RequirementsFile
      G.opts.Requirements G.opts.Flags G.opts.Environment = ov at hfail ⊢
    cases hov : ov.err with
    | some err =>
      simp only [hov] at hfail ⊢
      exact Or.inl ⟨_, List.mem_append_right _ (List.mem_singleton.mpr rfl), by simp⟩
    | none =>
      simp only [hov] at hfail ⊢
      cases hv : w.VerifyPreInstall G.opts.DisableVerifyPackages G.dir with
      | some err =>
        simp only [hv] at hfail ⊢
        exact Or.inl ⟨_, List.mem_append_right _ (List.mem_singleton.mpr rfl), by simp⟩
      | none =>
        simp only [hv] at hfail ⊢
        cases ha : (w.AddAndCommitFiles gitter G.dir "fix: initial code").2 with
        | some err =>
          simp only [ha] at hfail ⊢
          exact Or.inl ⟨_, List.mem_append_right _ (List.mem_singleton.mpr rfl), by simp⟩
        | none =>
          simp only [ha] at hfail ⊢
          generalize w.CreateDevEnvGitRepository G.dir ov.Flags.EnvironmentGitPublic = p
            at hfail ⊢
          cases hp : p.err with
          | some err =>
            simp only [hp] at hfail ⊢
            exact Or.inl ⟨_, List.mem_append_right _ (List.mem_singleton.mpr rfl), by simp⟩
          | none =>
            simp only [hp] at hfail ⊢
            generalize hpr : (if G.opts.DevGitURL ≠ "" then
              createPullRequestOnDevRepository w _ _ _
              else ({ err := none, trace := [] } : ErrResult)) = pr at hfail ⊢
            obtain ⟨-, -, hPcause, -⟩ := linkStep_errors _ _ _ _ _ _ hpr
            clear hpr
            cases hpe : pr.err with
            | some err =>
              simp only [hpe] at hfail ⊢
              rcases hPcause err hpe with ⟨hurl, hnone⟩ | ⟨ev, hev, hne⟩
              · exact Or.inr ⟨hGo ▸ hurl, hnone⟩
              · exact Or.inl ⟨ev, List.mem_append_right _ hev, hne⟩
            | none =>
              simp only [hpe] at hfail ⊢
              generalize hi : installGitOperator w _ G.dir = i at hfail ⊢
              obtain ⟨-, -, hIcause⟩ := hi ▸ installGitOperator_errors w _ G.dir
              clear hi
              generalize w.Confirm _ _ _ = f at hfail ⊢
              have hinstall : ∀ (t : List Event) (opts : Options),
                  (match i.err with
                    | some err =>
                      ({ outcome := .Failed err, opts := opts, trace := t ++ i.trace } : RunResult)
                    | none =>
                      { outcome := .Completed, opts := opts, trace := t ++ i.trace }).outcome =
                    .Failed reason →
                  ∃ ev ∈ (match i.err with
                    | some err =>
                      ({ outcome := .Failed err, opts := opts, trace := t ++ i.trace } : RunResult)
                    | none =>
                      { outcome := .Completed, opts := opts, trace := t ++ i.trace }).trace,
                    ev.err ≠ none := by
                intro t opts h
                cases hie : i.err with
                | some err =>
                  obtain ⟨ev, hev, hne⟩ := hIcause err hie
                  exact ⟨ev, List.mem_append_right _ hev, hne⟩
                | none => simp [hie] at h
              by_cases hno : G.opts.NoOperator = true
              · rw [if_pos hno] at hfail
                simp at hfail
              · rw [if_neg hno] at hfail ⊢
                by_cases hb : (!G.opts.BatchMode) = true
                · rw [if_pos hb] at hfail ⊢
                  cases hf : f.2 with
                  | some err =>
                    simp only [hf] at hfail ⊢
                    exact Or.inl ⟨_, List.mem_append_right _ (List.mem_singleton.mpr rfl),
                      by simp⟩
                  | none =>
                    simp only [hf] at hfail ⊢
                    by_cases hd : (!f.1) = true
                    · rw [if_pos hd] at hfail
                      simp at hfail
                    · rw [if_neg hd] at hfail ⊢
                      exact Or.inl (hinstall _ _ hfail)
                · rw [if_neg hb] at hfail ⊢
                  exact Or.inl (hinstall _ _ hfail)

theorem runWorkflow_no_operator_calls (c : Common) (w : Collaborators) (o : Options)
    (gitter : Gitter) (hno : o.NoOperator = true) :
    ((runWorkflow c w o gitter).outcome = .CompletedNoOperator ∨
        ∃ reason, (runWorkflow c w o gitter).outcome = .Failed reason) ∧
      ∀ ev ∈ (runWorkflow c w o gitter).trace,
        (∀ op, ev.call ≠ .OperatorRun op) ∧ ∀ m d h, ev.call ≠ .Confirm m d h := by
  have hG := gitCloneIfRequired_calls c w o gitter
  have hGo := (gitCloneIfRequired_opts c w o gitter).1
  rw [hno] at hGo
  unfold runWorkflow
  simp only
  generalize gitCloneIfRequired c w o gitter = G at hG hGo ⊢
  have hGcalls : ∀ ev ∈ G.trace,
      (∀ op, ev.call ≠ .OperatorRun op) ∧ ∀ m d h, ev.call ≠ .Confirm m d h := by
    intro ev hev
    have := hG ev hev
    constructor
    · intro op hop
      simp [Event.isAcquire, hop] at this
    · intro m d h hop
      simp [Event.isAcquire, hop] at this
  have hPcalls : ∀ o' u k, ∀ ev ∈ (createPullRequestOnDevRepository w o' u k).trace,
      (∀ op, ev.call ≠ .OperatorRun op) ∧ ∀ m d h, ev.call ≠ .Confirm m d h := by
    intro o' u k ev hev
    have := createPullRequestOnDevRepository_calls w o' u k ev hev
    constructor
    · intro op hop
      simp [Event.isLink, hop] at this
    · intro m d h hop
      simp [Event.isLink, hop] at this
  simp only [hGo, if_true]
  repeat' split
  all_goals refine ⟨by simp, ?_⟩
  all_goals
    intro ev hev
    simp only [List.mem_append, List.mem_singleton, List.not_mem_nil, or_false] at hev
    repeat' (obtain hev | hev := (hev : _ ∨ _))
  all_goals first
    | exact hGcalls ev hev
    | exact hPcalls _ _ _ ev hev
    | (subst hev; simp; done)

theorem createPullRequestOnDevRepository_needs_repository (w : Collaborators) (o : Options)
    (gitURL kind : String)
    (h : (createPullRequestOnDevRepository w o gitURL kind).err = none) :
    o.CreatedRepository ≠ none := by
  intro hnone
  unfold createPullRequestOnDevRepository at h
  simp [hnone] at h

theorem linkStep_repository (w : Collaborators) (o : Options) (gitURL kind : String) (b : Prop)
    [Decidable b] (pr : ErrResult)
    (hpr : (if b then createPullRequestOnDevRepository w o gitURL kind
      else { err := none, trace := [] }) = pr) :
    pr.err = none → b → o.CreatedRepository ≠ none := by
  subst hpr
  intro h hb
  rw [if_pos hb] at h
  exact createPullRequestOnDevRepository_needs_repository w o gitURL kind h

theorem installGitOperator_success (w : Collaborators) (o : Options) (dir : String)
    (h : (installGitOperator w o dir).err = none) :
    ∃ ev ∈ (installGitOperator w o dir).trace, (∃ op, ev.call = .OperatorRun op) ∧
      ev.err = none := by
  unfold installGitOperator at h ⊢
  simp only at h ⊢
  split at h
  · simp at h
  · rename_i hrun
    simp only [hrun]
    exact ⟨_, List.mem_singleton.mpr rfl, ⟨_, rfl⟩, rfl⟩

theorem runWorkflow_outcomes (c : Common) (w : Collaborators) (o : Options)
    (gitter : Gitter) :
    ((runWorkflow c w o gitter).outcome = .Completed →
        o.NoOperator = false ∧
        ∃ ev ∈ (runWorkflow c w o gitter).trace, (∃ op, ev.call = .OperatorRun op) ∧
          ev.err = none) ∧
      ((runWorkflow c w o gitter).outcome = .CompletedNoOperator → o.NoOperator = true) ∧
      ((runWorkflow c w o gitter).outcome = .Declined →
        o.NoOperator = false ∧ o.BatchMode = false ∧
        (∃ ev ∈ (runWorkflow c w o gitter).trace, ∃ m d h,
          ev.call = .Confirm m d h ∧ w.Confirm m d h = (false, none)) ∧
        ∀ ev ∈ (runWorkflow c w o gitter).trace, ∀ op, ev.call ≠ .OperatorRun op) ∧
      ((∀ reason, (runWorkflow c w o gitter).outcome ≠ .Failed reason) →
        (∀ ev ∈ (runWorkflow c w o gitter).trace, ev.err = none) ∧
        (o.DevGitURL ≠ "" → (runWorkflow c w o gitter).opts.CreatedRepository ≠ none)) := by
  have hGe := gitCloneIfRequired_errors c w o gitter
  have hGc := gitCloneIfRequired_calls c w o gitter
  obtain ⟨hGno, hGurl, hGb, -⟩ := gitCloneIfRequired_opts c w o gitter
  unfold runWorkflow
  simp only
  generalize gitCloneIfRequired c w o gitter = G at hGe hGc hGno hGurl hGb ⊢
  rw [← hGno, ← hGurl, ← hGb]
  clear hGno hGurl hGb
  cases hge : G.err with
  | some err => simp
  | none =>
    have hGnone := hGe.1 hge
    simp only
    generalize w.OverrideRequirements G.opts.Args G.dir G.opts.RequirementsFile
      G.opts.Requirements G.opts.Flags G.opts.Environment = ov
    cases hov : ov.err with
    | some err => simp
    | none =>
      simp only
      cases hv : w.VerifyPreInstall G.opts.DisableVerifyPackages G.dir with
      | some err => simp
      | none =>
        simp only
        cases ha : (w.AddAndCommitFiles gitter G.dir "fix: initial code").2 with
        | some err => simp
        | none =>
          simp only
          generalize w.CreateDevEnvGitRepository G.dir ov.Flags.EnvironmentGitPublic = p
          cases hp : p.err with
          | some err => simp
          | none =>
            simp only
            generalize hpr : (if G.opts.DevGitURL ≠ "" then
              createPullRequestOnDevRepository w _ _ _
              else ({ err := none, trace := [] } : ErrResult)) = pr
            obtain ⟨hPnone, -, -, hPcalls⟩ := linkStep_errors _ _ _ _ _ _ hpr
            have hPrepo := linkStep_repository _ _ _ _ _ _ hpr
            clear hpr
            cases hpe : pr.err with
            | some err => simp
            | none =>
              have hPn := hPnone hpe
              have hrepo := hPrepo hpe
              simp only at hrepo ⊢
              have hearly : ∀ x, x ∈ G.trace ++
                  [⟨123, .OverrideRequirements G.dir G.opts.RequirementsFile G.opts.Environment,
                    none⟩] ++
                  [⟨128, .VerifyPreInstall G.opts.DisableVerifyPackages G.dir, none⟩] ++
                  [⟨135, .AddAndCommitFiles gitter G.dir "fix: initial code", none⟩] ++
                  [⟨139, .CreateDevEnvGitRepository G.dir ov.Flags.EnvironmentGitPublic, none⟩] ++
                  pr.trace → x.err = none ∧ ∀ op, x.call ≠ .OperatorRun op := by
                intro x hx
                simp only [List.mem_append, List.mem_singleton] at hx
                rcases hx with ((((hx | hx) | hx) | hx) | hx) | hx
                · refine ⟨hGnone x hx, ?_⟩
                  intro op hop
                  have hacq := hGc x hx
                  simp [Event.isAcquire, hop] at hacq
                · subst hx; simp
                · subst hx; simp
                · subst hx; simp
                · subst hx; simp
                · refine ⟨hPn x hx, ?_⟩
                  intro op hop
                  have hlink := hPcalls x hx
                  simp [Event.isLink, hop] at hlink
              generalize G.trace ++
                  [⟨123, .OverrideRequirements G.dir G.opts.RequirementsFile G.opts.Environment,
                    none⟩] ++
                  [⟨128, .VerifyPreInstall G.opts.DisableVerifyPackages G.dir, none⟩] ++
                  [⟨135, .AddAndCommitFiles gitter G.dir "fix: initial code", none⟩] ++
                  [⟨139, .CreateDevEnvGitRepository G.dir ov.Flags.EnvironmentGitPublic, none⟩] ++
                  pr.trace = early at hearly ⊢
              generalize hi : installGitOperator w _ G.dir = i
              have hIsucc : i.err = none →
                  ∃ ev ∈ i.trace, (∃ op, ev.call = .OperatorRun op) ∧ ev.err = none := by
                intro h
                subst hi
                exact installGitOperator_success w _ G.dir h
              obtain ⟨hInone, -, -⟩ := hi ▸ installGitOperator_errors w _ G.dir
              clear hi
              generalize hfdef : w.Confirm "do you want to install the git operator into the cluster?"
                true _ = f
              by_cases hno : G.opts.NoOperator = true
              · rw [if_pos hno]
                exact ⟨by simp, fun _ => hno, by simp,
                  fun _ => ⟨fun x hx => (hearly x hx).1, hrepo⟩⟩
              · have hno' : G.opts.NoOperator = false := by simpa using hno
                rw [if_neg hno]
                by_cases hb : (!G.opts.BatchMode) = true
                · have hb' : G.opts.BatchMode = false := by simpa using hb
                  rw [if_pos hb]
                  cases hf : f.2 with
                  | some err => simp
                  | none =>
                    simp only
                    have hconfirm : ∀ x, x ∈ early ++
                        [⟨153, .Confirm "do you want to install the git operator into the cluster?"
                          true "the jx-git-operator is used to install/upgrade the components in the cluster via GitOps",
                          none⟩] → x.err = none ∧ ∀ op, x.call ≠ .OperatorRun op := by
                      intro x hx
                      rcases List.mem_append.mp hx with hx | hx
                      · exact hearly x hx
                      · rw [List.mem_singleton] at hx
                        subst hx
                        simp
                    by_cases hd : (!f.1) = true
                    · rw [if_pos hd]
                      refine ⟨by simp, by simp, fun _ => ⟨hno', hb', ?_, ?_⟩, fun _ => ⟨?_, hrepo⟩⟩
                      · refine ⟨_, List.mem_append_right _ (List.mem_singleton.mpr rfl),
                          _, _, _, rfl, ?_⟩
                        rw [hfdef]
                        exact Prod.ext (by simpa using hd) hf
                      · exact fun x hx => (hconfirm x hx).2
                      · exact fun x hx => (hconfirm x hx).1
                    · rw [if_neg hd]
                      cases hie : i.err with
                      | some err => simp
                      | none =>
                        simp only
                        refine ⟨fun _ => ⟨hno', ?_⟩, by simp, by simp, fun _ => ⟨?_, hrepo⟩⟩
                        · obtain ⟨ev, hev, hop, hnone⟩ := hIsucc hie
                          exact ⟨ev, List.mem_append_right _ hev, hop, hnone⟩
                        · intro x hx
                          rcases List.mem_append.mp hx with hx | hx
                          · exact (hconfirm x hx).1
                          · exact hInone hie x hx
                · rw [if_neg hb]
                  cases hie : i.err with
                  | some err => simp
                  | none =>
                    simp only
                    refine ⟨fun _ => ⟨hno', ?_⟩, by simp, by simp, fun _ => ⟨?_, hrepo⟩⟩
                    · obtain ⟨ev, hev, hop, hnone⟩ := hIsucc hie
                      exact ⟨ev, List.mem_append_right _ hev, hop, hnone⟩
                    · intro x hx
                      rcases List.mem_append.mp hx with hx | hx
                      · exact (hearly x hx).1
                      · exact hInone hie x hx

/-! ## From `runWorkflow` to `Run` -/

theorem Run_cases (c : Common) (w : Collaborators) (o : Options) :
    (o.DevGitURL ≠ "" ∧ o.DevGitKind = "" ∧ w.SaasGitKind o.DevGitURL = "" ∧
        (Run c w o).outcome = .Failed (.errorf "missing git kind option: --dev-git-kind") ∧
        (Run c w o).trace = []) ∨
      (¬(o.DevGitURL ≠ "" ∧ o.DevGitKind = "" ∧ w.SaasGitKind o.DevGitURL = "") ∧
        ∃ o' gitter, Run c w o = runWorkflow c w o' gitter ∧
          o'.NoOperator = o.NoOperator ∧ o'.DevGitURL = o.DevGitURL) := by
  unfold Run
  simp only
  by_cases hurl : o.DevGitURL ≠ ""
  · by_cases hkind : o.DevGitKind = ""
    · by_cases hsaas : w.SaasGitKind o.DevGitURL = ""
      · left
        simp [hurl, hkind, hsaas]
      · right
        refine ⟨fun h => hsaas h.2.2, ?_⟩
        rw [if_pos hurl, if_pos hkind, if_neg hsaas]
        exact ⟨_, _, rfl, rfl, rfl⟩
    · right
      refine ⟨fun h => hkind h.2.1, ?_⟩
      rw [if_pos hurl, if_neg hkind]
      exact ⟨_, _, rfl, rfl, rfl⟩
  · right
    refine ⟨fun h => hurl h.1, ?_⟩
    rw [if_neg hurl]
    exact ⟨_, _, rfl, rfl, rfl⟩

theorem runWorkflow_failed_iff (c : Common) (w : Collaborators) (o : Options)
    (gitter : Gitter) :
    ((∃ ev ∈ (runWorkflow c w o gitter).trace, ev.err ≠ none) ∨
        (o.DevGitURL ≠ "" ∧ (runWorkflow c w o gitter).opts.CreatedRepository = none)) ↔
      ∃ reason, (runWorkflow c w o gitter).outcome = .Failed reason := by
  constructor
  · intro hfatal
    cases hout : (runWorkflow c w o gitter).outcome with
    | Failed reason => exact ⟨reason, rfl⟩
    | Completed =>
      exfalso
      obtain ⟨hclean, hrepo⟩ := (runWorkflow_outcomes c w o gitter).2.2.2 (by simp [hout])
      rcases hfatal with ⟨ev, hev, hne⟩ | ⟨hurl, hnone⟩
      · exact hne (hclean ev hev)
      · exact hrepo hurl hnone
    | CompletedNoOperator =>
      exfalso
      obtain ⟨hclean, hrepo⟩ := (runWorkflow_outcomes c w o gitter).2.2.2 (by simp [hout])
      rcases hfatal with ⟨ev, hev, hne⟩ | ⟨hurl, hnone⟩
      · exact hne (hclean ev hev)
      · exact hrepo hurl hnone
    | Declined =>
      exfalso
      obtain ⟨hclean, hrepo⟩ := (runWorkflow_outcomes c w o gitter).2.2.2 (by simp [hout])
      rcases hfatal with ⟨ev, hev, hne⟩ | ⟨hurl, hnone⟩
      · exact hne (hclean ev hev)
      · exact hrepo hurl hnone
  · rintro ⟨reason, hout⟩
    exact runWorkflow_failed_cause c w o gitter reason hout

theorem Run_cases_options (c : Common) (w : Collaborators) (o : Options) :
    (o.DevGitURL ≠ "" ∧ o.DevGitKind = "" ∧ w.SaasGitKind o.DevGitURL = "" ∧
        (Run c w o).outcome = .Failed (.errorf "missing git kind option: --dev-git-kind") ∧
        (Run c w o).trace = []) ∨
      (¬(o.DevGitURL ≠ "" ∧ o.DevGitKind = "" ∧ w.SaasGitKind o.DevGitURL = "") ∧
        ∃ o' gitter, Run c w o = runWorkflow c w o' gitter ∧
          o'.NoOperator = o.NoOperator ∧ o'.DevGitURL = o.DevGitURL ∧
          o'.BatchMode = o.BatchMode) := by
  unfold Run
  simp only
  by_cases hurl : o.DevGitURL ≠ ""
  · by_cases hkind : o.DevGitKind = ""
    · by_cases hsaas : w.SaasGitKind o.DevGitURL = ""
      · left
        simp [hurl, hkind, hsaas]
      · right
        refine ⟨fun h => hsaas h.2.2, ?_⟩
        rw [if_pos hurl, if_pos hkind, if_neg hsaas]
        exact ⟨_, _, rfl, rfl, rfl, rfl⟩
    · right
      refine ⟨fun h => hkind h.2.1, ?_⟩
      rw [if_pos hurl, if_neg hkind]
      exact ⟨_, _, rfl, rfl, rfl, rfl⟩
  · right
    refine ⟨fun h => hurl h.1, ?_⟩
    rw [if_neg hurl]
    exact ⟨_, _, rfl, rfl, rfl, rfl⟩

/-! ## The claims on `Run` and `gitCloneIfRequired` -/

/-- Claim C1: when the verifier (`VerifyPreInstall`) returns an error, `Run`
returns that error wrapped, the verifier call is the last collaborator call of
the run, and no commit, publish, dev-repository clone, load, save,
pull-request, confirmation or operator-install call is in the trace. -/
theorem Run_verify_failure_stops (c : Common) (w : Collaborators) (o : Options)
    (ev : Event) (d : Bool) (dir : String) (e : Error)
    (hev : ev ∈ (Run c w o).trace)
    (hcall : ev.call = .VerifyPreInstall d dir) (herr : ev.err = some e) :
    (Run c w o).err = some (.wrap e ("failed to verify requirements in dir " ++ dir)) ∧
      (Run c w o).trace.getLast? = some ev ∧
      ∀ ev' ∈ (Run c w o).trace, ev'.afterVerify = false := by
  rcases Run_cases c w o with ⟨_, _, _, _, htrace⟩ | ⟨_, o', gitter, hrun, _, _⟩
  · rw [htrace] at hev
    simp at hev
  · rw [hrun] at hev ⊢
    obtain ⟨hout, hlast, hnone⟩ := runWorkflow_verify_failure c w o' gitter ev d dir e hev hcall herr
    exact ⟨by simp [RunResult.err, hout, BootstrapOutcome.returned], hlast, hnone⟩

/-- Witness of claim C1: the run whose verifier reports a missing tool. -/
theorem Run_verify_failure_stops_witness :
    (Run sampleCommon verifyFails zeroOptions).err =
        some (.wrap (.collab "helm is not installed")
          ("failed to verify requirements in dir " ++ "/tmp/helmboot-1")) ∧
      (Run sampleCommon verifyFails zeroOptions).trace.getLast? =
        some ⟨128, .VerifyPreInstall false "/tmp/helmboot-1",
          some (.collab "helm is not installed")⟩ ∧
      ∀ ev' ∈ (Run sampleCommon verifyFails zeroOptions).trace, ev'.afterVerify = false :=
  Run_verify_failure_stops sampleCommon verifyFails zeroOptions
    ⟨128, .VerifyPreInstall false "/tmp/helmboot-1", some (.collab "helm is not installed")⟩
    false "/tmp/helmboot-1" (.collab "helm is not installed") (by decide) rfl rfl

/-- Counterexample to claim C4 as stated: the empty environment key differs
from "dev", the initial URL is empty, and `gitCloneIfRequired` resolves the
URL to the bootstrap template, not to the environment template. -/
theorem gitCloneIfRequired_empty_key_uses_boot_template :
    zeroOptions.Environment ≠ "dev" ∧ zeroOptions.InitialGitURL = "" ∧
      (gitCloneIfRequired sampleCommon okCollaborators zeroOptions .cliClient).opts.InitialGitURL =
        sampleCommon.DefaultBootRepository ∧
      (gitCloneIfRequired sampleCommon okCollaborators zeroOptions .cliClient).opts.InitialGitURL ≠
        sampleCommon.DefaultEnvironmentHelmfileGitRepoURL ∧
      (gitCloneIfRequired sampleCommon okCollaborators zeroOptions .cliClient).trace =
        [⟨188, .TempDir, none⟩,
         ⟨196, .CloneToDir (some .cliClient) sampleCommon.DefaultBootRepository "/tmp/helmboot-1",
           none⟩] := by
  decide

/-- Claim C4, amended: with an empty `InitialGitURL`, `gitCloneIfRequired`
records in `InitialGitURL`, and passes to every clone it makes, the
environment template URL when the environment key is neither "dev" nor empty,
and the bootstrap template URL when the key is "dev" or empty. -/
theorem gitCloneIfRequired_default_url (c : Common) (w : Collaborators) (o : Options)
    (gitter : Gitter) (hurl : o.InitialGitURL = "") :
    (o.Environment ≠ "dev" → o.Environment ≠ "" →
        (gitCloneIfRequired c w o gitter).opts.InitialGitURL =
          c.DefaultEnvironmentHelmfileGitRepoURL ∧
        ∀ ev ∈ (gitCloneIfRequired c w o gitter).trace, ∀ g url dir,
          ev.call = .CloneToDir g url dir → url = c.DefaultEnvironmentHelmfileGitRepoURL) ∧
      ((o.Environment = "dev" ∨ o.Environment = "") →
        (gitCloneIfRequired c w o gitter).opts.InitialGitURL = c.DefaultBootRepository ∧
        ∀ ev ∈ (gitCloneIfRequired c w o gitter).trace, ∀ g url dir,
          ev.call = .CloneToDir g url dir → url = c.DefaultBootRepository) := by
  constructor
  · intro hdev hempty
    unfold gitCloneIfRequired
    simp only [hurl, hdev, hempty, if_true, if_false]
    repeat' split
    all_goals simp
  · intro henv
    unfold gitCloneIfRequired
    rcases henv with henv | henv
    · simp only [hurl, henv, if_true]
      repeat' split
      all_goals simp_all
    · simp only [hurl, henv, if_true]
      repeat' split
      all_goals simp

/-- Witness of the amended claim C4: the key "staging" with no initial URL. -/
theorem gitCloneIfRequired_default_url_witness :
    ({ zeroOptions with Environment := "staging" } : Options).InitialGitURL = "" ∧
      (gitCloneIfRequired sampleCommon okCollaborators
        { zeroOptions with Environment := "staging" } .cliClient).opts.InitialGitURL =
        sampleCommon.DefaultEnvironmentHelmfileGitRepoURL :=
  ⟨rfl, ((gitCloneIfRequired_default_url sampleCommon okCollaborators
    { zeroOptions with Environment := "staging" } .cliClient rfl).1
      (by decide) (by decide)).1⟩

/-- Claim C5, the code at the failing input: with the explicit directory
`/work`, `gitCloneIfRequired` creates the directory and then does call
`gitclient.CloneToDir` on it. -/
theorem gitCloneIfRequired_explicit_dir_clones :
    (gitCloneIfRequired sampleCommon okCollaborators { zeroOptions with Dir := "/work" }
        .cliClient).trace =
      [⟨183, .MkdirAll "/work", none⟩,
       ⟨196, .CloneToDir (some .cliClient) sampleCommon.DefaultBootRepository "/work", none⟩] := by
  decide

/-- Claim C6: with a dev-repository URL, no git kind given and none inferred
from the URL, `Run` returns the error "missing git kind option" and makes no
collaborator call at all. -/
theorem Run_missing_git_kind_fails_early (c : Common) (w : Collaborators) (o : Options)
    (hurl : o.DevGitURL ≠ "") (hkind : o.DevGitKind = "")
    (hsaas : w.SaasGitKind o.DevGitURL = "") :
    (Run c w o).err = some (.errorf "missing git kind option: --dev-git-kind") ∧
      (Run c w o).trace = [] := by
  rcases Run_cases c w o with ⟨_, _, _, hout, htrace⟩ | ⟨hnot, _⟩
  · exact ⟨by simp [RunResult.err, hout, BootstrapOutcome.returned], htrace⟩
  · exact absurd ⟨hurl, hkind, hsaas⟩ hnot

/-- Witness of claim C6: a dev-repository URL on an unknown host. -/
theorem Run_missing_git_kind_fails_early_witness :
    (Run sampleCommon okCollaborators
        { zeroOptions with DevGitURL := "https://git.internal.example/acme/dev.git" }).err =
        some (.errorf "missing git kind option: --dev-git-kind") ∧
      (Run sampleCommon okCollaborators
        { zeroOptions with DevGitURL := "https://git.internal.example/acme/dev.git" }).trace = [] :=
  Run_missing_git_kind_fails_early sampleCommon okCollaborators
    { zeroOptions with DevGitURL := "https://git.internal.example/acme/dev.git" }
    (by decide) rfl (by decide)

/-- Claim C7: with `NoOperator` set, whatever `BatchMode` is, the trace of
`Run` holds no operator-installer call and no confirmation prompt; the run ends
in `CompletedNoOperator` unless it fails; and it does end in
`CompletedNoOperator` when the git kind can be resolved, no collaborator call
returns an error and a created repository is available for the cross-link. -/
theorem Run_no_operator_skips_installer (c : Common) (w : Collaborators) (o : Options)
    (hno : o.NoOperator = true) :
    (∀ ev ∈ (Run c w o).trace,
        (∀ op, ev.call ≠ .OperatorRun op) ∧ ∀ m d h, ev.call ≠ .Confirm m d h) ∧
      ((Run c w o).outcome = .CompletedNoOperator ∨
        ∃ reason, (Run c w o).outcome = .Failed reason) ∧
      ((o.DevGitURL ≠ "" → o.DevGitKind = "" → w.SaasGitKind o.DevGitURL ≠ "") →
        (∀ ev ∈ (Run c w o).trace, ev.err = none) →
        (o.DevGitURL ≠ "" → (Run c w o).opts.CreatedRepository ≠ none) →
        (Run c w o).outcome = .CompletedNoOperator ∧ (Run c w o).err = none) := by
  rcases Run_cases c w o with ⟨h1, h2, h3, hout, htrace⟩ | ⟨_, o', gitter, hrun, hno', hurl'⟩
  · refine ⟨?_, Or.inr ⟨_, hout⟩, ?_⟩
    · intro ev hev
      rw [htrace] at hev
      simp at hev
    · intro hk _ _
      exact absurd h3 (hk h1 h2)
  · rw [hrun]
    obtain ⟨hout, hcalls⟩ := runWorkflow_no_operator_calls c w o' gitter (hno' ▸ hno)
    refine ⟨hcalls, hout, ?_⟩
    intro _ hok hcr
    rcases hout with hout | ⟨reason, hout⟩
    · exact ⟨hout, by simp [RunResult.err, hout, BootstrapOutcome.returned]⟩
    · exfalso
      rcases runWorkflow_failed_cause c w o' gitter reason hout with ⟨ev, hev, hne⟩ | ⟨hu, hnone⟩
      · exact hne (hok ev hev)
      · exact hcr (hurl' ▸ hu) hnone

/-- Witness of claim C7: an interactive run with `NoOperator` set. -/
theorem Run_no_operator_skips_installer_witness :
    (∀ ev ∈ (Run sampleCommon okCollaborators { zeroOptions with NoOperator := true }).trace,
        (∀ op, ev.call ≠ .OperatorRun op) ∧ ∀ m d h, ev.call ≠ .Confirm m d h) ∧
      (Run sampleCommon okCollaborators { zeroOptions with NoOperator := true }).outcome =
        .CompletedNoOperator ∧
      (Run sampleCommon okCollaborators { zeroOptions with NoOperator := true }).err = none :=
  ⟨(Run_no_operator_skips_installer sampleCommon okCollaborators
      { zeroOptions with NoOperator := true } rfl).1,
    (Run_no_operator_skips_installer sampleCommon okCollaborators
      { zeroOptions with NoOperator := true } rfl).2.2
      (fun h => absurd rfl h) (by decide) (fun h => absurd rfl h)⟩

/-- Counterexample to claim C8 as stated: three runs end in the three
different outcomes `Completed`, `CompletedNoOperator` and `Declined`, and
`Run` returns the same value, `nil`, in all three. -/
theorem Run_success_outcomes_return_nil :
    (Run sampleCommon okCollaborators zeroOptions).outcome = .Completed ∧
      (Run sampleCommon okCollaborators { zeroOptions with NoOperator := true }).outcome =
        .CompletedNoOperator ∧
      (Run sampleCommon userDeclines zeroOptions).outcome = .Declined ∧
      (Run sampleCommon okCollaborators zeroOptions).err = none ∧
      (Run sampleCommon okCollaborators { zeroOptions with NoOperator := true }).err = none ∧
      (Run sampleCommon userDeclines zeroOptions).err = none := by
  decide

/-- Claim C8, amended: `Run` returns a non-nil error exactly when a fatal step
occurred (the git kind of the dev repository could not be resolved, a
collaborator call returned an error, or the cross-link found no created
repository), and that is exactly the outcome `Failed reason`, with `reason`
the returned error.  `Completed` is reached only with a successful
operator-installer call, `CompletedNoOperator` only with the `NoOperator` flag
and no installer call, `Declined` only when the confirmation prompt was
answered "no" and no installer call was made; all three return `nil`.  Hence
two runs that end in different outcomes, at least one of them `Failed`,
return different values. -/
theorem Run_failure_distinguishable (c c' : Common) (w w' : Collaborators) (o o' : Options) :
    (((o.DevGitURL ≠ "" ∧ o.DevGitKind = "" ∧ w.SaasGitKind o.DevGitURL = "") ∨
          (∃ ev ∈ (Run c w o).trace, ev.err ≠ none) ∨
          (o.DevGitURL ≠ "" ∧ (Run c w o).opts.CreatedRepository = none)) ↔
        ∃ reason, (Run c w o).outcome = .Failed reason ∧ (Run c w o).err = some reason) ∧
      ((Run c w o).outcome = .Completed →
        (Run c w o).err = none ∧ o.NoOperator = false ∧
        ∃ ev ∈ (Run c w o).trace, (∃ op, ev.call = .OperatorRun op) ∧ ev.err = none) ∧
      ((Run c w o).outcome = .CompletedNoOperator →
        (Run c w o).err = none ∧ o.NoOperator = true ∧
        ∀ ev ∈ (Run c w o).trace, ∀ op, ev.call ≠ .OperatorRun op) ∧
      ((Run c w o).outcome = .Declined →
        (Run c w o).err = none ∧ o.NoOperator = false ∧ o.BatchMode = false ∧
        (∃ ev ∈ (Run c w o).trace, ∃ m d h,
          ev.call = .Confirm m d h ∧ w.Confirm m d h = (false, none)) ∧
        ∀ ev ∈ (Run c w o).trace, ∀ op, ev.call ≠ .OperatorRun op) ∧
      ((Run c w o).outcome ≠ (Run c' w' o').outcome →
        ((∃ reason, (Run c w o).outcome = .Failed reason) ∨
          ∃ reason, (Run c' w' o').outcome = .Failed reason) →
        (Run c w o).err ≠ (Run c' w' o').err) := by
  refine ⟨?_, ?_, ?_, ?_, ?_⟩
  · rcases Run_cases_options c w o with ⟨h1, h2, h3, hout, _⟩ | ⟨hnot, ow, gitter, hrun, _, hurl, _⟩
    · constructor
      · intro _
        exact ⟨_, hout, by simp [RunResult.err, hout, BootstrapOutcome.returned]⟩
      · intro _
        exact Or.inl ⟨h1, h2, h3⟩
    · rw [hrun, ← hurl]
      constructor
      · intro hfatal
        rcases hfatal with hkind | hfatal
        · exact absurd (hurl ▸ hkind) hnot
        · obtain ⟨reason, hout⟩ := (runWorkflow_failed_iff c w ow gitter).1 hfatal
          exact ⟨reason, hout, by simp [RunResult.err, hout, BootstrapOutcome.returned]⟩
      · rintro ⟨reason, hout, _⟩
        exact Or.inr ((runWorkflow_failed_iff c w ow gitter).2 ⟨reason, hout⟩)
  · intro hout
    rcases Run_cases_options c w o with ⟨_, _, _, hfail, _⟩ | ⟨_, ow, gitter, hrun, hno, _, _⟩
    · rw [hfail] at hout
      simp at hout
    · refine ⟨by simp [RunResult.err, hout, BootstrapOutcome.returned], ?_⟩
      rw [hrun] at hout ⊢
      rw [← hno]
      exact (runWorkflow_outcomes c w ow gitter).1 hout
  · intro hout
    rcases Run_cases_options c w o with ⟨_, _, _, hfail, _⟩ | ⟨_, ow, gitter, hrun, hno, _, _⟩
    · rw [hfail] at hout
      simp at hout
    · refine ⟨by simp [RunResult.err, hout, BootstrapOutcome.returned], ?_⟩
      rw [hrun] at hout ⊢
      rw [← hno]
      have hflag := (runWorkflow_outcomes c w ow gitter).2.1 hout
      exact ⟨hflag, fun ev hev => ((runWorkflow_no_operator_calls c w ow gitter hflag).2 ev hev).1⟩
  · intro hout
    rcases Run_cases_options c w o with ⟨_, _, _, hfail, _⟩ | ⟨_, ow, gitter, hrun, hno, _, hb⟩
    · rw [hfail] at hout
      simp at hout
    · refine ⟨by simp [RunResult.err, hout, BootstrapOutcome.returned], ?_⟩
      rw [hrun] at hout ⊢
      rw [← hno, ← hb]
      exact (runWorkflow_outcomes c w ow gitter).2.2.1 hout
  · unfold RunResult.err
    generalize (Run c w o).outcome = a
    generalize (Run c' w' o').outcome = b
    intro hdiff hfail
    cases a <;> cases b <;> simp_all [BootstrapOutcome.returned]

/-- Witness of the amended claim C8: a run that fails at the verifier and a
run that completes return different values. -/
theorem Run_failure_distinguishable_witness :
    (Run sampleCommon verifyFails zeroOptions).err ≠
      (Run sampleCommon okCollaborators zeroOptions).err :=
  (Run_failure_distinguishable sampleCommon sampleCommon verifyFails okCollaborators
    zeroOptions zeroOptions).2.2.2.2 (by decide)
    (Or.inl ⟨.wrap (.collab "helm is not installed")
      ("failed to verify requirements in dir " ++ "/tmp/helmboot-1"), by decide⟩)

/-- Counterexample to claim C10 as stated: when the clone of the workspace
fails, `Run` returns the collaborator's error bare; when the commit fails, the
context added by `Run` is the fixed text "failed to add files to git", which
names neither the directory nor a URL. -/
theorem Run_returns_clone_error_bare :
    (Run sampleCommon cloneFails zeroOptions).trace.getLast? =
        some ⟨196, .CloneToDir (some .cliClient) sampleCommon.DefaultBootRepository
          "/tmp/helmboot-1", some (.collab "git clone failed")⟩ ∧
      (Run sampleCommon cloneFails zeroOptions).err = some (.collab "git clone failed") ∧
      (Run sampleCommon commitFails { zeroOptions with Dir := "/work" }).trace.getLast? =
        some ⟨135, .AddAndCommitFiles .cliClient "/work" "fix: initial code",
          some (.collab "git commit failed")⟩ ∧
      (Run sampleCommon commitFails { zeroOptions with Dir := "/work" }).err =
        some (.wrap (.collab "git commit failed") "failed to add files to git") ∧
      ¬ mentions "failed to add files to git" "/work" ∧
      ¬ mentions "failed to add files to git" sampleCommon.DefaultBootRepository := by
  decide

/-- Claim C10, amended: when a collaborator call other than the clone of the
workspace (line 196) returns an error `e`, `Run` returns `e` inside at least
one wrapper; the innermost added context message begins with the words that
name the operation of the failing call (`Event.operationLabel`), so the
message of one operation is never given to another; every added message
begins with "failed to "; and for the creation of the given directory, the
requirements override, the verifier and the clone, load and save of the dev
repository, an added message contains the directory, URL or file name of the
failing call. -/
theorem Run_wraps_collaborator_errors (c : Common) (w : Collaborators) (o : Options)
    (ev : Event) (e : Error)
    (hev : ev ∈ (Run c w o).trace) (herr : ev.err = some e) (hline : ev.line ≠ 196) :
    ∃ added, added ≠ [] ∧ (Run c w o).err = some (e.wrapWith added) ∧
      (∃ inner, added.getLast? = some inner ∧ startsWith inner ev.operationLabel) ∧
      (∀ m ∈ added, startsWith m "failed to ") ∧
      ∀ t, ev.namedTarget = some t → ∃ m ∈ added, mentions m t := by
  rcases Run_cases c w o with ⟨_, _, _, _, htrace⟩ | ⟨_, o', gitter, hrun, _, _⟩
  · rw [htrace] at hev
    simp at hev
  · rw [hrun] at hev ⊢
    obtain ⟨added, hne, hout, hok⟩ := runWorkflow_wraps c w o' gitter ev e hev herr hline
    exact ⟨added, hne, by simp [RunResult.err, hout, BootstrapOutcome.returned],
      hok.1, hok.2.1, hok.2.2⟩

/-- Witness of the amended claim C10: the verifier fails in `/tmp/helmboot-1`. -/
theorem Run_wraps_collaborator_errors_witness :
    ∃ added, added ≠ [] ∧
      (Run sampleCommon verifyFails zeroOptions).err =
        some ((Error.collab "helm is not installed").wrapWith added) ∧
      (∃ inner, added.getLast? = some inner ∧
        startsWith inner "failed to verify requirements in dir ") ∧
      (∀ m ∈ added, startsWith m "failed to ") ∧
      ∀ t, (⟨128, .VerifyPreInstall false "/tmp/helmboot-1",
          some (.collab "helm is not installed")⟩ : Event).namedTarget = some t →
        ∃ m ∈ added, mentions m t :=
  Run_wraps_collaborator_errors sampleCommon verifyFails zeroOptions
    ⟨128, .VerifyPreInstall false "/tmp/helmboot-1", some (.collab "helm is not installed")⟩
    (.collab "helm is not installed") (by decide) rfl (by decide)

end JxAdmin
